import Mathlib

set_option autoImplicit false

/-!
# Verification of the gift-collection fetch-and-ingest pipeline

Shallow embedding of the Python sources under `src/parser/` (the
`AsyncDownloader`, `CacheManager`, `DataManager`, `GiftParser` and
`CollectionManager` classes) together with proofs about the embedded
operations.  Machinery that is external to the pipeline's logic —
wall-clock time, the HTML extractor, the network and the concrete JSON
encoder — is abstracted into explicit oracle parameters; everything that
the code computes itself is translated function-for-function.
-/

namespace GiftPipeline

/-! ## Association-list model of Python `dict` and `set`

Python dictionaries are modelled as insertion-ordered association lists
whose keys are unique; assignment `d[k] = v` replaces the value in place
when the key exists and appends otherwise (Python keeps the original
position of an updated key).  Python sets of strings are modelled as
duplicate-free lists with membership-guarded insertion. -/

def dictLookup {α : Type} (k : String) : List (String × α) → Option α
  | [] => none
  | (k', v) :: rest => if k' = k then some v else dictLookup k rest

/-- Python `d[k] = v`: replace in place if present, append otherwise. -/
def dictSet {α : Type} (k : String) (v : α) : List (String × α) → List (String × α)
  | [] => [(k, v)]
  | (k', v') :: rest => if k' = k then (k, v) :: rest else (k', v') :: dictSet k v rest

/-- Number of entries stored under key `k`; for a well-formed dict this is
0 or 1. -/
def dictCountKey {α : Type} (k : String) (l : List (String × α)) : Nat :=
  (l.filter (fun p => p.1 = k)).length

/-- Keys of a dict are pairwise distinct (the Python `dict` invariant). -/
def dictNodupKeys {α : Type} (l : List (String × α)) : Prop :=
  (l.map Prod.fst).Nodup

/-- `s.add(x)` on a Python set. -/
def setInsert (x : String) (l : List String) : List String :=
  if x ∈ l then l else l ++ [x]

theorem dictLookup_isSome_iff_mem {α : Type} (k : String) (l : List (String × α)) :
    (dictLookup k l).isSome ↔ k ∈ l.map Prod.fst := by
  induction l with
  | nil => simp [dictLookup]
  | cons p rest ih =>
    obtain ⟨a, b⟩ := p
    by_cases h : a = k
    · subst h; simp [dictLookup]
    · simp [dictLookup, h, ih, Ne.symm h]

theorem dictLookup_dictSet_self {α : Type} (k : String) (v : α) (l : List (String × α)) :
    dictLookup k (dictSet k v l) = some v := by
  induction l with
  | nil => simp [dictSet, dictLookup]
  | cons p rest ih =>
    obtain ⟨a, b⟩ := p
    by_cases ha : a = k
    · simp [dictSet, ha, dictLookup]
    · simp [dictSet, ha, dictLookup, ih]

theorem dictLookup_dictSet_ne {α : Type} (k k' : String) (v : α) (l : List (String × α))
    (h : k ≠ k') : dictLookup k' (dictSet k v l) = dictLookup k' l := by
  induction l with
  | nil => simp [dictSet, dictLookup, h]
  | cons p rest ih =>
    obtain ⟨a, b⟩ := p
    by_cases ha : a = k
    · subst ha
      simp [dictSet, dictLookup, h]
    · by_cases ha' : a = k'
      · simp [dictSet, dictLookup, ha, ha', Ne.symm h]
      · simp [dictSet, dictLookup, ha, ha', ih]

theorem mem_keys_dictSet {α : Type} (x k : String) (v : α) (l : List (String × α)) :
    x ∈ (dictSet k v l).map Prod.fst ↔ x = k ∨ x ∈ l.map Prod.fst := by
  induction l with
  | nil => simp [dictSet]
  | cons p rest ih =>
    obtain ⟨a, b⟩ := p
    by_cases ha : a = k
    · subst ha; simp [dictSet]
    · simp only [dictSet, ha, if_false, List.map_cons, List.mem_cons, ih]
      tauto

theorem dictNodupKeys_dictSet {α : Type} (k : String) (v : α) (l : List (String × α))
    (h : dictNodupKeys l) : dictNodupKeys (dictSet k v l) := by
  induction l with
  | nil => simp [dictSet, dictNodupKeys]
  | cons p rest ih =>
    obtain ⟨a, b⟩ := p
    unfold dictNodupKeys at h ⊢
    simp only [List.map_cons, List.nodup_cons] at h
    by_cases ha : a = k
    · subst ha
      simpa [dictSet] using h
    · simp only [dictSet, ha, if_false, List.map_cons, List.nodup_cons]
      refine ⟨?_, ih h.2⟩
      rw [mem_keys_dictSet]
      rintro (rfl | hmem)
      · exact ha rfl
      · exact h.1 hmem

theorem dictCountKey_eq_zero_of_not_mem {α : Type} (k : String) (l : List (String × α))
    (h : k ∉ l.map Prod.fst) : dictCountKey k l = 0 := by
  induction l with
  | nil => rfl
  | cons p rest ih =>
    obtain ⟨a, b⟩ := p
    simp only [List.map_cons, List.mem_cons] at h
    push_neg at h
    unfold dictCountKey at ih ⊢
    simp [List.filter, Ne.symm h.1, ih h.2]

theorem dictCountKey_of_lookup {α : Type} (k : String) (l : List (String × α))
    (hn : dictNodupKeys l) (hl : (dictLookup k l).isSome) : dictCountKey k l = 1 := by
  induction l with
  | nil => simp [dictLookup] at hl
  | cons p rest ih =>
    obtain ⟨a, b⟩ := p
    unfold dictNodupKeys at hn
    simp only [List.map_cons, List.nodup_cons] at hn
    by_cases ha : a = k
    · subst ha
      have hz := dictCountKey_eq_zero_of_not_mem a rest hn.1
      unfold dictCountKey at hz ⊢
      simp [List.filter, hz]
    · have hl' : (dictLookup k rest).isSome := by
        simpa [dictLookup, ha] using hl
      have := ih hn.2 hl'
      unfold dictCountKey at this ⊢
      simp [List.filter, ha, this]

/-! ## Gift records and validation (src/parser/gift_parser.py)

The HTML extraction heuristics of `GiftParser.parse_gift_data` are the
spec's external Extractor collaborator and are abstracted as an oracle
`parse : String → String → Option Gift` where the pipeline uses them.
`validate_gift_data` is pipeline logic and is translated. -/

structure Gift where
  url : String
  gift_id : String
  collection : String
  gift_number : Nat
  title : String
  /-- Abstraction of the remaining scalar fields produced by the parser
  (model, backdrop, symbol, rarity, owner, quantity, total supply,
  other data, image url), which the pipeline only ever compares for
  equality. -/
  attrs : String
  status : String
  parsed_at : String
  updated_at : Option String := none
  previous_status : Option String := none
deriving DecidableEq, Repr

/-- Splits a character list at the first occurrence of `"://"`,
returning the scheme part and the remainder. -/
def splitScheme : List Char → Option (List Char × List Char)
  | [] => none
  | ':' :: '/' :: '/' :: rest => some ([], rest)
  | c :: rest =>
    match splitScheme rest with
    | some (pre, post) => some (c :: pre, post)
    | none => none

/-- Model of the `urllib.parse.urlparse` check in `validate_gift_data`:
the parsed URL must have a non-empty scheme (before `"://"`) and a
non-empty netloc (the host part after it, up to the next `'/'`). -/
def urlparse_ok (u : String) : Bool :=
  match splitScheme u.toList with
  | some (scheme, rest) =>
    !scheme.isEmpty && !(rest.takeWhile (fun c => c != '/')).isEmpty
  | none => false

/-- `GiftParser.validate_gift_data`: the required fields
url/gift_id/collection/status must be present and truthy, and the URL
must parse with a scheme and a netloc. -/
def validate_gift_data (g : Gift) : Bool :=
  g.url != "" && g.gift_id != "" && g.collection != "" && g.status != "" &&
    urlparse_ok g.url

/-! ## CacheManager (src/parser/cache_manager.py) -/

/-- One entry of `url_status_cache`: what `mark_url_processed` stores
under a URL. Metadata values are optional strings (Python may store
`None`). -/
structure URLRecord where
  status : String
  processed_at : String
  metadata : List (String × Option String)
deriving DecidableEq, Repr

/-- One entry of `collection_progress`, as built by
`update_collection_progress`. -/
structure ProgressRec where
  total_urls : Nat
  processed_urls : Nat
  success_count : Nat
  error_count : Nat
  completion_rate : Rat
  success_rate : Rat
  last_updated : String
deriving DecidableEq, Repr

/-- In-memory state of `CacheManager`. `last_save_time` is modelled as an
abstract tick count. -/
structure CacheState where
  processed_urls : List String
  url_status_cache : List (String × URLRecord)
  collection_progress : List (String × ProgressRec)
  cache_dirty : Bool
  last_save_time : Nat
deriving Repr

/-- `CacheManager.__init__` state (empty caches, clean flag). -/
def initialCache : CacheState :=
  { processed_urls := [], url_status_cache := [], collection_progress := [],
    cache_dirty := false, last_save_time := 0 }

/-- `CacheManager.is_url_processed`. -/
def is_url_processed (st : CacheState) (url : String) : Bool :=
  decide (url ∈ st.processed_urls)

/-- `CacheManager.mark_url_processed`: add to the processed set, store a
fresh status record (last write wins), set the dirty flag. -/
def mark_url_processed (now : String) (st : CacheState) (url status : String)
    (metadata : List (String × Option String)) : CacheState :=
  { st with
    processed_urls := setInsert url st.processed_urls,
    url_status_cache :=
      dictSet url { status := status, processed_at := now, metadata := metadata }
        st.url_status_cache,
    cache_dirty := true }

/-- `CacheManager.filter_unprocessed_urls`. -/
def filter_unprocessed_urls (st : CacheState) (urls : List String) : List String :=
  urls.filter (fun u => !(is_url_processed st u))

/-- The three cache files written by `save_cache`, in write order:
the processed-URL line list, the URL status map, the progress map. -/
inductive CacheFile where
  | urlsFile
  | statusFile
  | progressFile
deriving DecidableEq, Repr

def cacheWriteTargets : List CacheFile :=
  [CacheFile.urlsFile, CacheFile.statusFile, CacheFile.progressFile]

/-- `CacheManager.save_cache`: early-returns success without touching
anything when the cache is clean and the save is not forced; otherwise
writes the three cache files, and on success clears the dirty flag and
stamps `last_save_time`. `ioFailAt = some k` means the k-th file write
raised an exception (caught and turned into a `False` return, leaving the
flags untouched); `none` means all writes succeed. The returned list is
the set of files actually written. -/
def save_cache (now : Nat) (ioFailAt : Option Nat) (force : Bool) (st : CacheState) :
    CacheState × Bool × List CacheFile :=
  if st.cache_dirty = false ∧ force = false then (st, true, [])
  else
    match ioFailAt with
    | some k => (st, false, cacheWriteTargets.take k)
    | none =>
      ({ st with cache_dirty := false, last_save_time := now }, true, cacheWriteTargets)

/-- `CacheManager.update_collection_progress`. -/
def update_collection_progress (now : String) (st : CacheState) (name : String)
    (total processed success errorc : Nat) : CacheState :=
  { st with
    collection_progress :=
      dictSet name
        { total_urls := total, processed_urls := processed,
          success_count := success, error_count := errorc,
          completion_rate :=
            if 0 < total then ((processed : Rat) / (total : Rat)) * 100 else 0,
          success_rate :=
            if 0 < processed then ((success : Rat) / (processed : Rat)) * 100 else 0,
          last_updated := now } st.collection_progress,
    cache_dirty := true }

/-! ## DataManager and the file-system model (src/parser/data_manager.py)

Paths are modelled abstractly: `pathlib`'s `with_suffix('.tmp')` produces a
sibling file in the same directory as the target, and the three per-
collection paths `{name}.json`, `{name}.tmp`, `{name}.json.backup` are
pairwise distinct, which the constructors encode. -/

structure Collection where
  collection_name : String
  total_gifts : Nat
  processed_gifts : Nat
  last_updated : String
  created_at : String
  gifts : List Gift
deriving DecidableEq, Repr

/-- `DataManager._create_empty_collection`. -/
def create_empty_collection (name now : String) : Collection :=
  { collection_name := name, total_gifts := 0, processed_gifts := 0,
    last_updated := now, created_at := now, gifts := [] }

inductive PathName where
  /-- `COLLECTIONS_DIR / "{name}.json"` — the durable target. -/
  | collectionFile (name : String)
  /-- `collection_file.with_suffix('.tmp')` — same directory as the target. -/
  | collectionTmp (name : String)
  /-- `COLLECTIONS_DIR / "{name}.json.backup"`. -/
  | collectionBackup (name : String)
deriving DecidableEq, Repr

/-- Contents of a file: either a complete, valid JSON encoding of a
collection, or the truncated/partial garbage a crashed write leaves. -/
inductive FileData where
  | collectionJson (c : Collection)
  | corrupt
deriving DecidableEq, Repr

/-- File-system operations issued by `save_collection`, in program order. -/
inductive FsOp where
  | copy (src dst : PathName)
  | write (path : PathName) (d : FileData)
  | rename (src dst : PathName)
deriving DecidableEq, Repr

def Fs : Type := PathName → Option FileData

def applyOp (fs : Fs) : FsOp → Fs
  | FsOp.copy src dst => fun p => if p = dst then fs src else fs p
  | FsOp.write path d => fun p => if p = path then some d else fs p
  | FsOp.rename src dst => fun p => if p = dst then fs src else if p = src then none else fs p

def applyOps (ops : List FsOp) (fs : Fs) : Fs := ops.foldl applyOp fs

/-- Whether an operation can modify the file at `p` at all (even when
interrupted part-way through). -/
def opTouches (op : FsOp) (p : PathName) : Bool :=
  match op with
  | FsOp.copy _ dst => p = dst
  | FsOp.write path _ => p = path
  | FsOp.rename src dst => p = src || p = dst

/-- In-memory state of `DataManager` (the collections cache plus the
last-save tick used by the 30-second flush rule). -/
structure DataState where
  collections_cache : List (String × Collection)
  last_save_time : Nat
deriving Repr

/-- `DataManager.load_collection`: serve from the in-memory cache when
present; otherwise read from disk (`disk name = none` covers both a
missing and an unreadable file), falling back to a fresh empty
collection. -/
def load_collection (disk : String → Option Collection) (now : String)
    (st : DataState) (name : String) : DataState × Collection :=
  match dictLookup name st.collections_cache with
  | some c => (st, c)
  | none =>
    match disk name with
    | some c => ({ st with collections_cache := dictSet name c st.collections_cache }, c)
    | none =>
      let c := create_empty_collection name now
      ({ st with collections_cache := dictSet name c st.collections_cache }, c)

/-- `DataManager.save_collection`: stamp `last_updated` and overwrite
`processed_gifts` with the full record count, optionally copy the current
file to the rotating backup, then write a temp file in the same directory
and atomically rename it over the target. Returns the updated state,
the success flag, and the file-system operations in program order. -/
def save_collection (autoBackup : Bool) (now : String) (nowT : Nat) (fs : Fs)
    (st : DataState) (name : String) : DataState × Bool × List FsOp :=
  match dictLookup name st.collections_cache with
  | none => (st, false, [])
  | some cd =>
    let cd' := { cd with last_updated := now, processed_gifts := cd.gifts.length }
    let backupOps :=
      if (fs (PathName.collectionFile name)).isSome && autoBackup then
        [FsOp.copy (PathName.collectionFile name) (PathName.collectionBackup name)]
      else []
    let ops := backupOps ++
      [FsOp.write (PathName.collectionTmp name) (FileData.collectionJson cd'),
       FsOp.rename (PathName.collectionTmp name) (PathName.collectionFile name)]
    ({ st with
        collections_cache := dictSet name cd' st.collections_cache,
        last_save_time := nowT },
      true, ops)

/-- `DataManager.add_gifts_to_collection`, first-match replacement step:
walk the stored list looking for the incoming record's id; if the match
differs from the incoming record, replace it in place, stamping
`updated_at` and copying the stored `status` into `previous_status`;
if identical, leave the list untouched. Returns the new list and whether
a replacement happened. -/
def replaceFirstGift (now : String) (g : Gift) : List Gift → List Gift × Bool
  | [] => ([], false)
  | e :: rest =>
    if e.gift_id = g.gift_id then
      if e = g then (e :: rest, false)
      else ({ g with updated_at := some now, previous_status := some e.status } :: rest, true)
    else
      let r := replaceFirstGift now g rest
      (e :: r.1, r.2)

/-- One iteration of the `for gift in gifts` loop of
`add_gifts_to_collection`; state is (current list, added, updated).
A falsy (empty) `gift_id` is skipped; a known id goes through
first-match replacement; a new id is appended (and from then on counts
as known, which the current-list membership test reflects). -/
def upsertStep (now : String) (acc : List Gift × Nat × Nat) (g : Gift) :
    List Gift × Nat × Nat :=
  if g.gift_id = "" then acc
  else if g.gift_id ∈ acc.1.map Gift.gift_id then
    let r := replaceFirstGift now g acc.1
    (r.1, acc.2.1, if r.2 then acc.2.2 + 1 else acc.2.2)
  else (acc.1 ++ [g], acc.2.1 + 1, acc.2.2)

/-- `DataManager.add_gifts_to_collection`: upsert a batch, recompute
`total_gifts` (all records) and `processed_gifts` (active records only),
store the result, and flush to disk when more than 30 seconds have
passed since the last save. Returns added + updated. -/
def add_gifts_to_collection (disk : String → Option Collection) (now : String)
    (nowT : Nat) (autoBackup : Bool) (fs : Fs) (st : DataState) (name : String)
    (gs : List Gift) : DataState × Nat × List FsOp :=
  if gs.isEmpty then (st, 0, [])
  else
    let lc := load_collection disk now st name
    let folded := gs.foldl (upsertStep now) (lc.2.gifts, 0, 0)
    let cd' := { lc.2 with
      gifts := folded.1,
      total_gifts := folded.1.length,
      processed_gifts := (folded.1.filter (fun g => g.status = "active")).length }
    let st2 := { lc.1 with collections_cache := dictSet name cd' lc.1.collections_cache }
    if 30 < nowT - st2.last_save_time then
      let sv := save_collection autoBackup now nowT fs st2 name
      (sv.1, folded.2.1 + folded.2.2, sv.2.2)
    else (st2, folded.2.1 + folded.2.2, [])

/-! ## AsyncDownloader (src/parser/async_downloader.py)

The network is an oracle `script : Nat → Outcome` giving, per attempt
index, what the request for a URL observes.  The exception flow of
`_download_single` is translated branch by branch.  A raised
`aiohttp.ClientResponseError` (the non-200 and escalated-404 branches)
is a subclass of `aiohttp.ClientError` and is raised inside the same
`try`, so the `except ClientError` clause catches it and turns it into a
returned result; only `asyncio.TimeoutError` (when not skipped) and
non-client exceptions escape to the tenacity retry decorator.  Exception
texts are abstracted to fixed strings (`str(asyncio.TimeoutError())` is
the empty string). -/

inductive Outcome where
  /-- HTTP 200 with a body. -/
  | ok (body : String)
  /-- Any other HTTP status code. -/
  | httpStatus (code : Nat)
  /-- `asyncio.TimeoutError` from the request. -/
  | timeout
  /-- A transport-level `aiohttp.ClientError` (connection reset, ...). -/
  | clientErr (msg : String)
  /-- Any other exception. -/
  | unexpected (msg : String)
deriving DecidableEq, Repr

/-- What one attempt of `_download_single` does: either return a
`(body, error)` pair to the caller, or let an exception escape to the
retry decorator. `add404` records `self.failed_urls.add(url)`, executed
on every 404 response. -/
inductive AttemptRes where
  | done (body errMsg : Option String) (add404 : Bool)
  | raised (msg : String)
deriving DecidableEq, Repr

/-- One attempt of `_download_single` (the body of the `async with`
blocks), for the given `SKIP_404_ERRORS` / `SKIP_TIMEOUT_ERRORS`
configuration. -/
def attempt_result (skip404 skipTimeout : Bool) : Outcome → AttemptRes
  | Outcome.ok body => AttemptRes.done (some body) none false
  | Outcome.httpStatus code =>
    if code = 404 then
      if skip404 then AttemptRes.done none (some "404 Not Found") true
      -- The escalation branch raises ClientResponseError(404), which the
      -- except-ClientError clause of the same try block catches at once.
      else AttemptRes.done none (some "Client error: 404") true
    else
      -- Non-200/404: raises ClientResponseError, likewise caught by the
      -- except-ClientError clause and returned, never retried.
      AttemptRes.done none (some ("Client error: HTTP " ++ toString code)) false
  | Outcome.timeout =>
    if skipTimeout then AttemptRes.done none (some "Request timeout") false
    else AttemptRes.raised ""
  | Outcome.clientErr msg => AttemptRes.done none (some ("Client error: " ++ msg)) false
  | Outcome.unexpected msg => AttemptRes.raised msg

/-- Result of `_download_single` under the retry decorator: the returned
`(body, error)` pair or (`Except.error`) the re-raised exception, with
the number of attempts consumed and whether the URL entered
`failed_urls`. -/
structure DownloadOut where
  res : Except String (Option String × Option String)
  attempts : Nat
  add404 : Bool
deriving Repr

/-- The bounded retry loop of `tenacity.retry(stop=stop_after_attempt(·),
reraise=True)`: `i` is the 0-based attempt index, the second argument the
number of attempts still allowed after the current one; when it reaches
zero the exception is re-raised to the caller. -/
def retryLoop (step : Nat → AttemptRes) : Nat → Nat → DownloadOut
  | i, 0 =>
    match step i with
    | AttemptRes.done b e f => { res := Except.ok (b, e), attempts := i + 1, add404 := f }
    | AttemptRes.raised m => { res := Except.error m, attempts := i + 1, add404 := false }
  | i, r + 1 =>
    match step i with
    | AttemptRes.done b e f => { res := Except.ok (b, e), attempts := i + 1, add404 := f }
    | AttemptRes.raised _ => retryLoop step (i + 1) r

/-- `AsyncDownloader._download_single` with its decorator
`retry(stop=stop_after_attempt(3), wait=wait_exponential(multiplier=1,
min=1, max=10), reraise=True)`. -/
def download_single (skip404 skipTimeout : Bool) (script : Nat → Outcome) : DownloadOut :=
  retryLoop (fun i => attempt_result skip404 skipTimeout (script i)) 0 (3 - 1)

/-- The delay `wait_exponential(multiplier=1, min=1, max=10)` imposes
before retry `n` (`n = 1` after the first failed attempt):
`1 * 2^(n-1)` seconds clamped to `[1, 10]`. -/
def tenacity_wait (n : Nat) : Nat := min 10 (max 1 (2 ^ (n - 1)))

/-- One iteration of the result-collection loop of
`AsyncDownloader.download_batch`: run the task for one URL, record its
`(url, body, error)` tuple — converting a propagated exception into
`(url, None, str(e))` — and accumulate `failed_urls`. -/
def batchStep (skip404 skipTimeout : Bool) (scripts : String → Nat → Outcome)
    (acc : List String × List (String × Option String × Option String))
    (url : String) : List String × List (String × Option String × Option String) :=
  let out := download_single skip404 skipTimeout (scripts url)
  let failed' := if out.add404 then setInsert url acc.1 else acc.1
  let r := match out.res with
    | Except.ok (b, e) => (url, b, e)
    | Except.error m => (url, none, some m)
  (failed', acc.2 ++ [r])

/-- `AsyncDownloader.download_batch`: tasks are created for exactly the
URLs not in `failed_urls` at batch start (the creation loop has no await
point, so all membership tests see the same set), then every task's
outcome is appended as one result tuple. -/
def download_batch (skip404 skipTimeout : Bool) (scripts : String → Nat → Outcome)
    (failed : List String) (urls : List String) :
    List String × List (String × Option String × Option String) :=
  (urls.filter (fun u => decide (u ∉ failed))).foldl
    (batchStep skip404 skipTimeout scripts) (failed, [])

/-- The batch slicing `urls[i:i+batch_size]` of
`download_with_batching`. -/
def chunkList {α : Type} (n : Nat) : List α → List (List α)
  | [] => []
  | x :: xs => (x :: xs.take (n - 1)) :: chunkList n (xs.drop (n - 1))
termination_by l => l.length
decreasing_by
  simp only [List.length_cons, List.length_drop]
  omega

/-- `AsyncDownloader.download_with_batching`: sequential batches over one
downloader, threading `failed_urls` and concatenating the per-batch
results. -/
def download_with_batching (skip404 skipTimeout : Bool)
    (scripts : String → Nat → Outcome) (batchSize : Nat) (failed : List String)
    (urls : List String) :
    List String × List (String × Option String × Option String) :=
  (chunkList batchSize urls).foldl
    (fun acc batch =>
      let r := download_batch skip404 skipTimeout scripts acc.1 batch
      (r.1, acc.2 ++ r.2))
    (failed, [])

/-! ## CollectionManager (src/parser/collection_manager.py) -/

/-- The configuration fields of `ParserConfig` (src/parser/config.py)
used by the pipeline logic, with their default values. -/
structure Config where
  MAX_CONCURRENT_REQUESTS : Nat := 100
  BATCH_SIZE : Nat := 500
  RETRY_COUNT : Nat := 3
  REQUESTS_PER_SECOND : Nat := 20
  SAVE_INTERVAL : Nat := 1000
  AUTO_BACKUP : Bool := true
  SKIP_404_ERRORS : Bool := true
  SKIP_TIMEOUT_ERRORS : Bool := false
deriving Repr

def defaultConfig : Config := {}

/-- The dictionary built by `CollectionManager._create_collection_stats`.
`duration` is wall-clock time, taken as a parameter. -/
structure CollStats where
  collection_name : String
  total_urls : Nat
  processed_urls : Nat
  successful_parses : Nat
  failed_parses : Nat
  success_rate : Rat
  duration : Rat
  urls_per_second : Rat
deriving DecidableEq, Repr

/-- `CollectionManager._create_collection_stats`. -/
def create_collection_stats (name : String) (total processed success errors : Nat)
    (duration : Rat) : CollStats :=
  { collection_name := name, total_urls := total, processed_urls := processed,
    successful_parses := success, failed_parses := errors,
    success_rate :=
      if 0 < processed then ((success : Rat) / (processed : Rat)) * 100 else 0,
    duration := duration,
    urls_per_second := if 0 < duration then (processed : Rat) / duration else 0 }

/-- The collaborators and clock of one `process_collection` run:
the external Extractor (`parse`), the collection files on disk, the
file system seen by backup-existence checks, and the current time
(string form for records, tick form for save intervals).  The run is
modelled at one instant, as the claims under study do not depend on
time advancing during a run. -/
structure PipelineEnv where
  parse : String → String → Option Gift
  disk : String → Option Collection
  fs : Fs
  nowS : String
  nowT : Nat

/-- Loop state of the result-processing loop in `process_collection`. -/
structure IngestState where
  cache : CacheState
  data : DataState
  processed : Nat
  success : Nat
  errors : Nat
deriving Repr

/-- `CollectionManager._periodic_save`: flush the collection and the
cache (in-memory effects; the emitted file operations are those of
`save_collection`/`save_cache`). -/
def periodic_save (cfg : Config) (env : PipelineEnv) (name : String)
    (st : IngestState) : IngestState :=
  let d := save_collection cfg.AUTO_BACKUP env.nowS env.nowT env.fs st.data name
  let c := save_cache env.nowT none false st.cache
  { st with data := d.1, cache := c.1 }

/-- The classification part of one iteration of the
`for url, html_content, error in results` loop of `process_collection`
(lines 163-187): body present and extractor yields a valid record —
upsert and mark `active`; extractor yields nothing or an invalid
record — mark `parse_failed`; body absent — mark `deleted` on the 404
outcome and `error` otherwise, attaching the error text as metadata. -/
def ingest_classify (cfg : Config) (env : PipelineEnv) (name : String)
    (st : IngestState) (r : String × Option String × Option String) : IngestState :=
  let url := r.1
  let processed' := st.processed + 1
  match r.2.1 with
  | some html =>
    match env.parse html url with
    | some g =>
      if validate_gift_data g then
        let d := add_gifts_to_collection env.disk env.nowS env.nowT
          cfg.AUTO_BACKUP env.fs st.data name [g]
        { st with
          data := d.1,
          cache := mark_url_processed env.nowS st.cache url "active"
            [("gift_id", some g.gift_id), ("collection", some name)],
          processed := processed', success := st.success + 1 }
      else
        { st with
          cache := mark_url_processed env.nowS st.cache url "parse_failed" [],
          processed := processed', errors := st.errors + 1 }
    | none =>
      { st with
        cache := mark_url_processed env.nowS st.cache url "parse_failed" [],
        processed := processed', errors := st.errors + 1 }
  | none =>
    let status := if r.2.2 = some "404 Not Found" then "deleted" else "error"
    { st with
      cache := mark_url_processed env.nowS st.cache url status [("error", r.2.2)],
      processed := processed', errors := st.errors + 1 }

/-- One full iteration of the result loop (lines 163-191): classify and
mark, then checkpoint every `SAVE_INTERVAL` processed URLs. -/
def ingest_result (cfg : Config) (env : PipelineEnv) (name : String)
    (st : IngestState) (r : String × Option String × Option String) : IngestState :=
  let st1 := ingest_classify cfg env name st r
  if (st.processed + 1) % cfg.SAVE_INTERVAL = 0 then periodic_save cfg env name st1
  else st1

/-- Everything `process_collection` leaves behind: the returned stats
dictionary, the updated cache/data/downloader state, and the fetch-layer
results (one tuple per task that ran). -/
structure RunOutcome where
  stats : CollStats
  cache : CacheState
  data : DataState
  failed_urls : List String
  results : List (String × Option String × Option String)
deriving Repr

/-- `CollectionManager.process_collection` over an already-loaded URL
list (`load_collection_urls` reads an external file; its output is the
`all_urls` argument).  `failed` is the downloader's `failed_urls` set at
run start. -/
def process_collection (cfg : Config) (env : PipelineEnv)
    (scripts : String → Nat → Outcome) (name : String) (all_urls : List String)
    (resume_mode : Bool) (dur : Rat) (cache : CacheState) (data : DataState)
    (failed : List String) : RunOutcome :=
  if all_urls.isEmpty then
    { stats := create_collection_stats name 0 0 0 0 0,
      cache := cache, data := data, failed_urls := failed, results := [] }
  else
    let urls_to_process :=
      if resume_mode then filter_unprocessed_urls cache all_urls else all_urls
    let skipped := all_urls.length - urls_to_process.length
    if urls_to_process.isEmpty then
      { stats := create_collection_stats name all_urls.length 0 0 skipped 0,
        cache := cache, data := data, failed_urls := failed, results := [] }
    else
      let dl := download_with_batching cfg.SKIP_404_ERRORS cfg.SKIP_TIMEOUT_ERRORS
        scripts cfg.BATCH_SIZE failed urls_to_process
      let ing := dl.2.foldl (ingest_result cfg env name)
        { cache := cache, data := data, processed := 0, success := 0, errors := 0 }
      let d2 := save_collection cfg.AUTO_BACKUP env.nowS env.nowT env.fs ing.data name
      let c2 := save_cache env.nowT none false ing.cache
      let c3 := update_collection_progress env.nowS c2.1 name all_urls.length
        ing.processed ing.success ing.errors
      { stats := create_collection_stats name all_urls.length ing.processed
          ing.success ing.errors dur,
        cache := c3, data := d2.1, failed_urls := dl.1, results := dl.2 }

/-- One entry of the `collection_results` dictionary built by
`process_all_collections`: either a stats dictionary or, for a failed
collection, an error message with zeroed counters. -/
structure CollectionResultEntry where
  error : Option String
  processed_urls : Nat
  successful_parses : Nat
  failed_parses : Nat
  stats : Option CollStats
deriving DecidableEq, Repr

/-- The aggregate state `processing_stats` plus `collection_results`. -/
structure AllStats where
  total_collections : Nat
  completed_collections : Nat
  total_urls : Nat
  processed_urls : Nat
  successful_parses : Nat
  failed_parses : Nat
  collection_results : List (String × CollectionResultEntry)
deriving Repr

/-- The entry recorded for one collection: the stats dictionary on
success, or (the `except` branch) the exception text with zeroed
counters. -/
def entry_for_result : Except String CollStats → CollectionResultEntry
  | Except.ok s =>
    { error := none, processed_urls := s.processed_urls,
      successful_parses := s.successful_parses,
      failed_parses := s.failed_parses, stats := some s }
  | Except.error e =>
    { error := some e, processed_urls := 0, successful_parses := 0,
      failed_parses := 0, stats := none }

/-- One iteration of the collection loop of `process_all_collections`:
record the per-collection entry, and fold its counters into the
aggregate only on success. -/
def allStep (run : String → Except String CollStats) (acc : AllStats)
    (name : String) : AllStats :=
  match run name with
  | Except.ok s =>
    { acc with
      collection_results := dictSet name (entry_for_result (Except.ok s))
        acc.collection_results,
      completed_collections := acc.completed_collections + 1,
      processed_urls := acc.processed_urls + s.processed_urls,
      successful_parses := acc.successful_parses + s.successful_parses,
      failed_parses := acc.failed_parses + s.failed_parses }
  | Except.error e =>
    { acc with
      collection_results := dictSet name (entry_for_result (Except.error e))
        acc.collection_results }

/-- `CollectionManager.process_all_collections` over a loaded master
list. Whether a given collection's processing succeeds (the stats it
returns) or raises (its exception text) is the environment's choice,
abstracted as the `run` oracle; the try/except around
`process_collection` is translated inside `allStep`. `urlCount`
abstracts the URL-list preloading used for `total_urls`. -/
def process_all_collections (run : String → Except String CollStats)
    (urlCount : String → Nat) (collections : List String) : AllStats :=
  collections.foldl (allStep run)
    { total_collections := collections.length, completed_collections := 0,
      total_urls := (collections.map urlCount).sum, processed_urls := 0,
      successful_parses := 0, failed_parses := 0, collection_results := [] }

/-! ## The concurrency semaphore (src/parser/async_downloader.py, lines
22-26 and 127-128)

`_download_single` wraps its network call in `async with self.semaphore`
where `self.semaphore = Semaphore(config.MAX_CONCURRENT_REQUESTS)`.
This is modelled as a transition system over the download tasks of a
run: a task is `idle` until it acquires the semaphore, `inflight` while
it holds it (the only phase in which the network call runs), and
`done` after release.  `asyncio.Semaphore` semantics: acquisition only
succeeds while the counter is positive and decrements it; release
increments it. -/

inductive TaskPhase where
  | idle
  | inflight
  | done
deriving DecidableEq, Repr

structure SemState where
  free : Nat
  tasks : List TaskPhase
deriving DecidableEq, Repr

/-- Number of tasks currently inside the `async with self.semaphore`
block, i.e. with an admitted network call in flight. -/
def inflight_tasks (s : SemState) : Nat := s.tasks.count TaskPhase.inflight

/-- Interleaving steps of the download tasks: `acquire` admits an idle
task only while the semaphore counter is positive; `release` ends an
in-flight task and returns its permit. -/
inductive SemStep : SemState → SemState → Prop where
  | acquire (free : Nat) (tasks : List TaskPhase) (i : Nat)
      (hidle : tasks.get? i = some TaskPhase.idle) (hfree : 0 < free) :
      SemStep ⟨free, tasks⟩ ⟨free - 1, tasks.set i TaskPhase.inflight⟩
  | release (free : Nat) (tasks : List TaskPhase) (i : Nat)
      (hin : tasks.get? i = some TaskPhase.inflight) :
      SemStep ⟨free, tasks⟩ ⟨free + 1, tasks.set i TaskPhase.done⟩

inductive SemReachable (init : SemState) : SemState → Prop where
  | refl : SemReachable init init
  | tail {s t : SemState} : SemReachable init s → SemStep s t → SemReachable init t

/-- `AsyncDownloader.__init__`: a fresh semaphore with
`MAX_CONCURRENT_REQUESTS` permits and no task started. -/
def downloader_init (maxConcurrent nTasks : Nat) : SemState :=
  { free := maxConcurrent, tasks := List.replicate nTasks TaskPhase.idle }

/-! ## C8: the dirty flag contract of the resume cache -/

/-- **C8**: when the dirty flag is clear and saving is not forced,
`save_cache` writes no file, reports success and leaves the state
unchanged; `mark_url_processed` always sets the dirty flag; and a save
that actually runs (dirty or forced) and whose writes succeed reports
success, clears the dirty flag and stamps `last_save_time`. -/
theorem save_cache_dirty_flag_contract
    (now : Nat) (ioFailAt : Option Nat) (st st₂ st₃ : CacheState)
    (nowS url status : String) (md : List (String × Option String)) (force : Bool)
    (hclean : st.cache_dirty = false) :
    save_cache now ioFailAt false st = (st, true, [])
    ∧ (mark_url_processed nowS st₂ url status md).cache_dirty = true
    ∧ (save_cache now none force st₃).2.1 = true
    ∧ (st₃.cache_dirty = true ∨ force = true →
        (save_cache now none force st₃).1.cache_dirty = false
        ∧ (save_cache now none force st₃).1.last_save_time = now) := by
  refine ⟨?_, rfl, ?_, ?_⟩
  · simp [save_cache, hclean]
  · unfold save_cache
    by_cases h : st₃.cache_dirty = false ∧ force = false
    · simp [h]
    · simp [h]
  · intro hd
    unfold save_cache
    have hcon : ¬(st₃.cache_dirty = false ∧ force = false) := by
      rcases hd with h | h <;> simp [h]
    simp [hcon]

theorem save_cache_dirty_flag_contract_witness :
    save_cache 7 none false initialCache = (initialCache, true, [])
    ∧ (mark_url_processed "t0" initialCache "u1" "active" []).cache_dirty = true
    ∧ (save_cache 7 none true initialCache).2.1 = true
    ∧ (initialCache.cache_dirty = true ∨ true = true →
        (save_cache 7 none true initialCache).1.cache_dirty = false
        ∧ (save_cache 7 none true initialCache).1.last_save_time = 7) :=
  save_cache_dirty_flag_contract 7 none initialCache initialCache initialCache
    "t0" "u1" "active" [] true rfl

/-! ## C9: the semaphore bounds in-flight fetches -/

theorem count_set_add (l : List TaskPhase) (i : Nat) (old a b : TaskPhase)
    (h : l.get? i = some old) :
    (l.set i a).count b + (if old = b then 1 else 0)
      = l.count b + (if a = b then 1 else 0) := by
  induction l generalizing i with
  | nil => simp at h
  | cons x xs ih =>
    cases i with
    | zero =>
      simp only [List.get?] at h
      injection h with h
      subst h
      by_cases hxb : x = b <;> by_cases hab : a = b <;>
        simp [List.set, List.count_cons, hxb, hab]
    | succ j =>
      simp only [List.get?] at h
      have hrec := ih j h
      by_cases hxb : x = b <;>
        simp [List.set, List.count_cons, hxb] <;> omega

theorem sem_invariant (M n : Nat) (s : SemState)
    (h : SemReachable (downloader_init M n) s) :
    s.free + inflight_tasks s = M := by
  induction h with
  | refl =>
    simp [downloader_init, inflight_tasks, List.count_replicate]
  | tail hr hstep ih =>
    cases hstep with
    | acquire free tasks i hidle hfree =>
      have hc := count_set_add tasks i TaskPhase.idle TaskPhase.inflight
        TaskPhase.inflight hidle
      simp only [inflight_tasks] at ih ⊢
      simp at hc
      omega
    | release free tasks i hin =>
      have hc := count_set_add tasks i TaskPhase.inflight TaskPhase.done
        TaskPhase.inflight hin
      simp only [inflight_tasks] at ih ⊢
      simp at hc
      omega

/-- **C9**: in every state reachable from a fresh downloader, the number
of tasks holding the semaphore — the only tasks whose network call is
running — never exceeds `MAX_CONCURRENT_REQUESTS`; the `acquire` step of
the transition system is the only way into the in-flight phase and
requires a free permit. -/
theorem semaphore_bounds_inflight (cfg : Config) (nTasks : Nat) (s : SemState)
    (h : SemReachable (downloader_init cfg.MAX_CONCURRENT_REQUESTS nTasks) s) :
    inflight_tasks s ≤ cfg.MAX_CONCURRENT_REQUESTS := by
  have := sem_invariant cfg.MAX_CONCURRENT_REQUESTS nTasks s h
  omega

theorem semaphore_bounds_inflight_witness :
    inflight_tasks
      { free := 100 - 1,
        tasks := (List.replicate 5 TaskPhase.idle).set 0 TaskPhase.inflight }
      ≤ defaultConfig.MAX_CONCURRENT_REQUESTS :=
  semaphore_bounds_inflight defaultConfig 5 _
    (SemReachable.tail SemReachable.refl
      (SemStep.acquire 100 (List.replicate 5 TaskPhase.idle) 0 rfl (by decide)))

/-! ## Concrete fixtures shared by witnesses -/

def demoGift : Gift :=
  { url := "https://t.me/nft/lightsword-1", gift_id := "lightsword-1",
    collection := "lightsword", gift_number := 1, title := "Light Sword #1",
    attrs := "model A", status := "active", parsed_at := "t0" }

def demoGift2 : Gift :=
  { url := "https://t.me/nft/lightsword-2", gift_id := "lightsword-2",
    collection := "lightsword", gift_number := 2, title := "Light Sword #2",
    attrs := "model B", status := "deleted", parsed_at := "t0" }

def demoColl : Collection :=
  { collection_name := "lightsword", total_gifts := 2, processed_gifts := 1,
    last_updated := "t0", created_at := "t0", gifts := [demoGift, demoGift2] }

def demoData : DataState :=
  { collections_cache := [("lightsword", demoColl)], last_save_time := 0 }

def emptyFs : Fs := fun _ => none

def demoEnv : PipelineEnv :=
  { parse := fun _ _ => none, disk := fun _ => none, fs := emptyFs,
    nowS := "t1", nowT := 0 }

/-! ## C6: atomic collection saves -/

/-- **C6**: a successful `save_collection` emits its file operations as
backup-copy (optional), temp-file write, rename-over-target; executing
any proper prefix of them (a crash at any point before the rename)
leaves the target file exactly as it was, no operation before the final
rename can touch the target path even when interrupted mid-write, and
executing all of them installs the complete encoding of the updated
collection. -/
theorem save_collection_eq (autoBackup : Bool) (now : String) (nowT : Nat)
    (fs : Fs) (st : DataState) (name : String) (cd : Collection)
    (hcd : dictLookup name st.collections_cache = some cd) :
    save_collection autoBackup now nowT fs st name =
      ({ st with
          collections_cache := dictSet name
            { cd with last_updated := now, processed_gifts := cd.gifts.length }
            st.collections_cache,
          last_save_time := nowT },
       true,
       (if (fs (PathName.collectionFile name)).isSome && autoBackup then
          [FsOp.copy (PathName.collectionFile name) (PathName.collectionBackup name)]
        else []) ++
         [FsOp.write (PathName.collectionTmp name)
            (FileData.collectionJson
              { cd with last_updated := now, processed_gifts := cd.gifts.length }),
          FsOp.rename (PathName.collectionTmp name) (PathName.collectionFile name)]) := by
  simp [save_collection, hcd]

theorem save_collection_atomic (autoBackup : Bool) (now : String) (nowT : Nat)
    (fs : Fs) (st : DataState) (name : String) (cd : Collection)
    (hcd : dictLookup name st.collections_cache = some cd) :
    (save_collection autoBackup now nowT fs st name).2.1 = true
    ∧ (∀ k, k < (save_collection autoBackup now nowT fs st name).2.2.length →
        applyOps ((save_collection autoBackup now nowT fs st name).2.2.take k) fs
            (PathName.collectionFile name)
          = fs (PathName.collectionFile name))
    ∧ (∀ op ∈ (save_collection autoBackup now nowT fs st name).2.2.dropLast,
        opTouches op (PathName.collectionFile name) = false)
    ∧ applyOps (save_collection autoBackup now nowT fs st name).2.2 fs
          (PathName.collectionFile name)
        = some (FileData.collectionJson
            { cd with last_updated := now, processed_gifts := cd.gifts.length }) := by
  rw [save_collection_eq autoBackup now nowT fs st name cd hcd]
  by_cases hb : ((fs (PathName.collectionFile name)).isSome && autoBackup) = true
  · simp only [hb, if_true]
    refine ⟨trivial, ?_, ?_, ?_⟩
    · intro k hk
      have hk3 : k < 3 := hk
      interval_cases k <;> simp [applyOps, applyOp]
    · intro op hop
      fin_cases hop <;> simp [opTouches]
    · simp [applyOps, applyOp]
  · simp only [hb, if_false]

    refine ⟨trivial, ?_, ?_, ?_⟩
    · intro k hk
      have hk2 : k < 2 := hk
      interval_cases k <;> simp [applyOps, applyOp]
    · intro op hop
      fin_cases hop; simp [opTouches]
    · simp [applyOps, applyOp]

theorem save_collection_atomic_witness :
    (save_collection true "t1" 5 emptyFs demoData "lightsword").2.1 = true
    ∧ (∀ k, k < (save_collection true "t1" 5 emptyFs demoData "lightsword").2.2.length →
        applyOps ((save_collection true "t1" 5 emptyFs demoData "lightsword").2.2.take k)
            emptyFs (PathName.collectionFile "lightsword")
          = emptyFs (PathName.collectionFile "lightsword"))
    ∧ (∀ op ∈ (save_collection true "t1" 5 emptyFs demoData "lightsword").2.2.dropLast,
        opTouches op (PathName.collectionFile "lightsword") = false)
    ∧ applyOps (save_collection true "t1" 5 emptyFs demoData "lightsword").2.2 emptyFs
          (PathName.collectionFile "lightsword")
        = some (FileData.collectionJson
            { demoColl with last_updated := "t1",
                            processed_gifts := demoColl.gifts.length }) :=
  save_collection_atomic true "t1" 5 emptyFs demoData "lightsword" demoColl rfl

/-! ## C10: `processed_gifts` is overwritten with the full record count
on save -/

theorem load_collection_last_save_time (disk : String → Option Collection)
    (now : String) (st : DataState) (name : String) :
    (load_collection disk now st name).1.last_save_time = st.last_save_time := by
  unfold load_collection
  cases hc : dictLookup name st.collections_cache with
  | some c => rfl
  | none =>
    cases hd : disk name with
    | some c => rfl
    | none => rfl

/-- **C10**: the encoding persisted by `save_collection` carries
`processed_gifts = len(gifts)` whatever the record statuses are, so the
file has `processed_gifts = total_gifts` whenever the in-memory
`total_gifts` equals the record count; the second conjunct exhibits the
different, active-records-only `processed_gifts` (together with
`total_gifts = len(gifts)`) that `add_gifts_to_collection` computes and
that the save overwrites. -/
theorem save_overwrites_processed_gifts (autoBackup : Bool) (now : String)
    (nowT : Nat) (fs : Fs) (st : DataState) (name : String) (cd : Collection)
    (hcd : dictLookup name st.collections_cache = some cd) :
    (∃ cd', applyOps (save_collection autoBackup now nowT fs st name).2.2 fs
          (PathName.collectionFile name) = some (FileData.collectionJson cd')
      ∧ cd'.processed_gifts = cd.gifts.length
      ∧ cd'.total_gifts = cd.total_gifts
      ∧ (cd.total_gifts = cd.gifts.length → cd'.processed_gifts = cd'.total_gifts))
    ∧ (∀ (disk : String → Option Collection) (st₂ : DataState) (name₂ : String)
        (gs : List Gift), gs ≠ [] → ¬ 30 < nowT - st₂.last_save_time →
        ∃ cd₂, dictLookup name₂
            (add_gifts_to_collection disk now nowT autoBackup fs st₂ name₂ gs).1.collections_cache
          = some cd₂
          ∧ cd₂.processed_gifts
              = (cd₂.gifts.filter (fun g => g.status = "active")).length
          ∧ cd₂.total_gifts = cd₂.gifts.length) := by
  constructor
  · refine ⟨{ cd with last_updated := now, processed_gifts := cd.gifts.length },
      ?_, rfl, rfl, fun h => h.symm⟩
    exact (save_collection_atomic autoBackup now nowT fs st name cd hcd).2.2.2
  · intro disk st₂ name₂ gs hgs hslow
    have hne : gs.isEmpty = false := by
      cases gs with
      | nil => exact absurd rfl hgs
      | cons x xs => rfl
    simp only [add_gifts_to_collection, hne, Bool.false_eq_true, if_false]
    rw [load_collection_last_save_time]
    simp only [hslow, if_false]
    refine ⟨_, dictLookup_dictSet_self _ _ _, ?_, ?_⟩ <;> rfl

theorem save_overwrites_processed_gifts_witness :
    (∃ cd', applyOps (save_collection true "t1" 5 emptyFs demoData "lightsword").2.2
          emptyFs (PathName.collectionFile "lightsword")
        = some (FileData.collectionJson cd')
      ∧ cd'.processed_gifts = demoColl.gifts.length
      ∧ cd'.total_gifts = demoColl.total_gifts
      ∧ (demoColl.total_gifts = demoColl.gifts.length →
          cd'.processed_gifts = cd'.total_gifts))
    ∧ (∀ (disk : String → Option Collection) (st₂ : DataState) (name₂ : String)
        (gs : List Gift), gs ≠ [] → ¬ 30 < 5 - st₂.last_save_time →
        ∃ cd₂, dictLookup name₂
            (add_gifts_to_collection disk "t1" 5 true emptyFs st₂ name₂ gs).1.collections_cache
          = some cd₂
          ∧ cd₂.processed_gifts
              = (cd₂.gifts.filter (fun g => g.status = "active")).length
          ∧ cd₂.total_gifts = cd₂.gifts.length) :=
  save_overwrites_processed_gifts true "t1" 5 emptyFs demoData "lightsword" demoColl rfl

/-! ## C2: the retry policy

The claim says every retryable failure — timeouts, transient transport
errors, and non-2xx/non-404 HTTP statuses — is retried up to 3 attempts.
On the code, the raised `ClientResponseError` (a `ClientError` subclass)
of the non-200-status branches is caught by the `except ClientError`
clause of the same `try` and returned as a terminal result on the first
attempt; the same holds for transport-level client errors.  Only
timeouts (with `SKIP_TIMEOUT_ERRORS` false) and non-client exceptions
reach the retry decorator. -/

/-- **C2** counterexample: a URL whose server answers HTTP 500 on every
attempt is *not* re-attempted — `_download_single` consumes exactly one
attempt (not 3) and immediately yields a terminal client-error result. -/
theorem http_error_terminal_on_first_attempt :
    download_single true false (fun _ => Outcome.httpStatus 500)
      = { res := Except.ok (none, some "Client error: HTTP 500"),
          attempts := 1, add404 := false }
    ∧ (download_single true false (fun _ => Outcome.httpStatus 500)).attempts ≠ 3 :=
  ⟨rfl, by decide⟩

/-- **C2** (amended): with the default configuration, a timeout is
retried up to 3 attempts and, once exhausted, surfaces through
`download_batch` as a reported per-URL result rather than an uncaught
exception, with delays following capped exponential backoff; HTTP
statuses other than 200 (404 included) and transport-level client
errors are terminal on the very first attempt, without retry. -/
theorem retry_policy_apportioned (url m : String) (code : Nat)
    (script : Nat → Outcome) (scripts : String → Nat → Outcome)
    (htime : ∀ i, script i = Outcome.timeout)
    (hhttp : code ≠ 404)
    (hs : ∀ i, scripts url i = Outcome.timeout) :
    download_single true false script
      = { res := Except.error "", attempts := 3, add404 := false }
    ∧ (download_batch true false scripts [] [url]).2 = [(url, none, some "")]
    ∧ download_single true false (fun _ => Outcome.httpStatus code)
        = { res := Except.ok (none, some ("Client error: HTTP " ++ toString code)),
            attempts := 1, add404 := false }
    ∧ download_single true false (fun _ => Outcome.clientErr m)
        = { res := Except.ok (none, some ("Client error: " ++ m)),
            attempts := 1, add404 := false }
    ∧ tenacity_wait 1 = 1
    ∧ tenacity_wait 2 = 2 * tenacity_wait 1
    ∧ (∀ n, tenacity_wait n ≤ 10) := by
  have hsingle : download_single true false script
      = { res := Except.error "", attempts := 3, add404 := false } := by
    simp [download_single, retryLoop, attempt_result, htime 0, htime 1, htime 2]
  have hsingle' : download_single true false (scripts url)
      = { res := Except.error "", attempts := 3, add404 := false } := by
    simp [download_single, retryLoop, attempt_result, hs 0, hs 1, hs 2]
  refine ⟨hsingle, ?_, ?_, ?_, rfl, rfl, fun n => Nat.min_le_left _ _⟩
  · simp [download_batch, batchStep, hsingle']
  · simp [download_single, retryLoop, attempt_result, hhttp]
  · rfl

theorem retry_policy_apportioned_witness :
    download_single true false (fun _ => Outcome.timeout)
      = { res := Except.error "", attempts := 3, add404 := false }
    ∧ (download_batch true false (fun _ _ => Outcome.timeout) [] ["u1"]).2
        = [("u1", none, some "")]
    ∧ download_single true false (fun _ => Outcome.httpStatus 500)
        = { res := Except.ok (none, some ("Client error: HTTP " ++ toString 500)),
            attempts := 1, add404 := false }
    ∧ download_single true false (fun _ => Outcome.clientErr "Connection reset")
        = { res := Except.ok (none, some ("Client error: " ++ "Connection reset")),
            attempts := 1, add404 := false }
    ∧ tenacity_wait 1 = 1
    ∧ tenacity_wait 2 = 2 * tenacity_wait 1
    ∧ (∀ n, tenacity_wait n ≤ 10) :=
  retry_policy_apportioned "u1" "Connection reset" 500
    (fun _ => Outcome.timeout) (fun _ _ => Outcome.timeout)
    (fun _ => rfl) (by decide) (fun _ => rfl)

/-! ## C4: upsert semantics -/

theorem replaceFirstGift_length (now : String) (g : Gift) (l : List Gift) :
    (replaceFirstGift now g l).1.length = l.length := by
  induction l with
  | nil => rfl
  | cons e rest ih =>
    by_cases he : e.gift_id = g.gift_id
    · by_cases heg : e = g <;> simp [replaceFirstGift, he, heg]
    · simp [replaceFirstGift, he, ih]

theorem replaceFirstGift_of_unique (now : String) (g e : Gift) :
    ∀ l1 l2 : List Gift, ((l1 ++ e :: l2).map Gift.gift_id).Nodup →
    e.gift_id = g.gift_id → e ≠ g →
    replaceFirstGift now g (l1 ++ e :: l2) =
      (l1 ++ ({ g with updated_at := some now, previous_status := some e.status }) :: l2,
       true) := by
  intro l1
  induction l1 with
  | nil =>
    intro l2 hn hid hne
    simp [replaceFirstGift, hid, hne]
  | cons x l1 ih =>
    intro l2 hn hid hne
    simp only [List.cons_append, List.map_cons, List.nodup_cons] at hn
    have hx : x.gift_id ≠ g.gift_id := by
      intro hxg
      exact hn.1 (by
        rw [hxg, ← hid]
        simp [List.map_append])
    have := ih l2 hn.2 hid hne
    simp [replaceFirstGift, hx, this]

theorem replaceFirstGift_self (now : String) (g : Gift) :
    ∀ l : List Gift, g ∈ l → (l.map Gift.gift_id).Nodup →
    replaceFirstGift now g l = (l, false) := by
  intro l
  induction l with
  | nil => intro h; cases h
  | cons x rest ih =>
    intro hmem hn
    simp only [List.map_cons, List.nodup_cons] at hn
    by_cases hx : x.gift_id = g.gift_id
    · have hxg : x = g := by
        rcases List.mem_cons.1 hmem with h | h
        · exact h.symm
        · exact absurd (hx ▸ List.mem_map.2 ⟨g, h, rfl⟩) hn.1
      simp [replaceFirstGift, hx, hxg]
    · have hgrest : g ∈ rest := by
        rcases List.mem_cons.1 hmem with h | h
        · exact absurd (congrArg Gift.gift_id h.symm) hx
        · exact h
      simp [replaceFirstGift, hx, ih hgrest hn.2]

theorem upsert_fold_length (now : String) :
    ∀ (gs : List Gift) (gifts : List Gift) (a u : Nat),
    (gs.foldl (upsertStep now) (gifts, a, u)).1.length + a
      = gifts.length + (gs.foldl (upsertStep now) (gifts, a, u)).2.1 := by
  intro gs
  induction gs with
  | nil => intro gifts a u; simp
  | cons g gs ih =>
    intro gifts a u
    simp only [List.foldl_cons]
    by_cases hid : g.gift_id = ""
    · simpa [upsertStep, hid] using ih gifts a u
    · by_cases hmem : g.gift_id ∈ gifts.map Gift.gift_id
      · have hstep : upsertStep now (gifts, a, u) g
            = ((replaceFirstGift now g gifts).1, a,
               if (replaceFirstGift now g gifts).2 then u + 1 else u) := by
          simp [upsertStep, hid, hmem]
        rw [hstep]
        have hrec := ih (replaceFirstGift now g gifts).1 a
          (if (replaceFirstGift now g gifts).2 then u + 1 else u)
        rw [replaceFirstGift_length] at hrec
        exact hrec
      · have hstep : upsertStep now (gifts, a, u) g = (gifts ++ [g], a + 1, u) := by
          simp [upsertStep, hid, hmem]
        rw [hstep]
        have hrec := ih (gifts ++ [g]) (a + 1) u
        simp only [List.length_append, List.length_singleton] at hrec
        omega

/-- **C4**: one pass of the upsert loop, against a stored list with
unique ids and an incoming record with a non-empty id (the data-model
invariants): an unseen id is appended and counted as added; a seen id
with different content is replaced in place with `updated_at` stamped
and `previous_status` set to the stored record's status, counted as
updated; an identical record leaves the stored list entirely untouched
and counts nothing.  The batch call returns added + updated, and the
added summand equals exactly the number of appended records. -/
theorem upsert_batch_contract (now : String) (gifts : List Gift) (a u : Nat)
    (g e : Gift) (hid : g.gift_id ≠ "")
    (hn : (gifts.map Gift.gift_id).Nodup) :
    (g.gift_id ∉ gifts.map Gift.gift_id →
      upsertStep now (gifts, a, u) g = (gifts ++ [g], a + 1, u))
    ∧ (e ∈ gifts → e.gift_id = g.gift_id → e ≠ g →
      ∃ l1 l2, gifts = l1 ++ e :: l2 ∧
        upsertStep now (gifts, a, u) g =
          (l1 ++ ({ g with updated_at := some now,
                           previous_status := some e.status }) :: l2,
           a, u + 1))
    ∧ (g ∈ gifts → upsertStep now (gifts, a, u) g = (gifts, a, u))
    ∧ (∀ (disk : String → Option Collection) (nowT : Nat) (autoBackup : Bool)
        (fs : Fs) (st : DataState) (name : String) (gs : List Gift),
        gs ≠ [] →
        (add_gifts_to_collection disk now nowT autoBackup fs st name gs).2.1
          = (gs.foldl (upsertStep now)
              ((load_collection disk now st name).2.gifts, 0, 0)).2.1
            + (gs.foldl (upsertStep now)
              ((load_collection disk now st name).2.gifts, 0, 0)).2.2)
    ∧ (∀ (gs gifts0 : List Gift),
        (gs.foldl (upsertStep now) (gifts0, 0, 0)).1.length
          = gifts0.length + (gs.foldl (upsertStep now) (gifts0, 0, 0)).2.1) := by
  refine ⟨?_, ?_, ?_, ?_, ?_⟩
  · intro hmem
    simp [upsertStep, hid, hmem]
  · intro hemem hide hne
    obtain ⟨l1, l2, rfl⟩ := List.append_of_mem hemem
    refine ⟨l1, l2, rfl, ?_⟩
    have hmem : g.gift_id ∈ ((l1 ++ e :: l2).map Gift.gift_id) := by
      rw [← hide]
      exact List.mem_map.2 ⟨e, by simp, rfl⟩
    have hstep : upsertStep now (l1 ++ e :: l2, a, u) g
        = ((replaceFirstGift now g (l1 ++ e :: l2)).1, a,
           if (replaceFirstGift now g (l1 ++ e :: l2)).2 then u + 1 else u) := by
      simp only [upsertStep]
      rw [if_neg hid, if_pos hmem]
    rw [hstep, replaceFirstGift_of_unique now g e l1 l2 hn hide hne]
    simp
  · intro hmem
    have hmem' : g.gift_id ∈ gifts.map Gift.gift_id :=
      List.mem_map.2 ⟨g, hmem, rfl⟩
    simp [upsertStep, hid, hmem', replaceFirstGift_self now g gifts hmem hn]
  · intro disk nowT autoBackup fs st name gs hgs
    have hne : gs.isEmpty = false := by
      cases gs with
      | nil => exact absurd rfl hgs
      | cons x xs => rfl
    simp only [add_gifts_to_collection, hne, Bool.false_eq_true, if_false]
    by_cases hT : 30 < nowT - (load_collection disk now st name).1.last_save_time <;>
      simp [hT]
  · intro gs gifts0
    have := upsert_fold_length now gs gifts0 0 0
    omega

theorem upsert_batch_contract_witness :
    (demoGift.gift_id ∉ [demoGift2].map Gift.gift_id →
      upsertStep "t1" ([demoGift2], 0, 0) demoGift = ([demoGift2] ++ [demoGift], 0 + 1, 0))
    ∧ (demoGift2 ∈ [demoGift2] → demoGift2.gift_id = demoGift.gift_id →
        demoGift2 ≠ demoGift →
      ∃ l1 l2, [demoGift2] = l1 ++ demoGift2 :: l2 ∧
        upsertStep "t1" ([demoGift2], 0, 0) demoGift =
          (l1 ++ ({ demoGift with updated_at := some "t1",
                                  previous_status := some demoGift2.status }) :: l2,
           0, 0 + 1))
    ∧ (demoGift ∈ [demoGift2] →
        upsertStep "t1" ([demoGift2], 0, 0) demoGift = ([demoGift2], 0, 0))
    ∧ (∀ (disk : String → Option Collection) (nowT : Nat) (autoBackup : Bool)
        (fs : Fs) (st : DataState) (name : String) (gs : List Gift),
        gs ≠ [] →
        (add_gifts_to_collection disk "t1" nowT autoBackup fs st name gs).2.1
          = (gs.foldl (upsertStep "t1")
              ((load_collection disk "t1" st name).2.gifts, 0, 0)).2.1
            + (gs.foldl (upsertStep "t1")
              ((load_collection disk "t1" st name).2.gifts, 0, 0)).2.2)
    ∧ (∀ (gs gifts0 : List Gift),
        (gs.foldl (upsertStep "t1") (gifts0, 0, 0)).1.length
          = gifts0.length + (gs.foldl (upsertStep "t1") (gifts0, 0, 0)).2.1) :=
  upsert_batch_contract "t1" [demoGift2] 0 0 demoGift demoGift2
    (by decide) (by decide)

/-! ## C5: resume idempotence -/

/-- **C5**: with every submitted URL already marked processed, a
`resume_mode` run performs no fetch (no result tuple is produced, the
cache and store are untouched) and returns `processed_urls = 0`; and
`filter_unprocessed_urls` keeps exactly the submitted URLs missing from
the processed set. -/
theorem resume_idempotence (cfg : Config) (env : PipelineEnv)
    (scripts : String → Nat → Outcome) (name : String) (all_urls : List String)
    (dur : Rat) (cache : CacheState) (data : DataState) (failed : List String)
    (hall : ∀ u ∈ all_urls, is_url_processed cache u = true) :
    (process_collection cfg env scripts name all_urls true dur cache data failed).results
      = []
    ∧ (process_collection cfg env scripts name all_urls true dur cache data
        failed).stats.processed_urls = 0
    ∧ (process_collection cfg env scripts name all_urls true dur cache data
        failed).cache = cache
    ∧ (process_collection cfg env scripts name all_urls true dur cache data
        failed).data = data
    ∧ (∀ (c : CacheState) (us : List String) (u : String),
        u ∈ filter_unprocessed_urls c us ↔ u ∈ us ∧ u ∉ c.processed_urls) := by
  have hfilter : filter_unprocessed_urls cache all_urls = [] := by
    simp only [filter_unprocessed_urls, List.filter_eq_nil_iff]
    intro u hu
    simp [hall u hu]
  refine ⟨?_, ?_, ?_, ?_, ?_⟩
  · by_cases hempty : all_urls.isEmpty <;>
      simp [process_collection, hempty, hfilter]
  · by_cases hempty : all_urls.isEmpty <;>
      simp [process_collection, hempty, hfilter, create_collection_stats]
  · by_cases hempty : all_urls.isEmpty <;>
      simp [process_collection, hempty, hfilter]
  · by_cases hempty : all_urls.isEmpty <;>
      simp [process_collection, hempty, hfilter]
  · intro c us u
    simp [filter_unprocessed_urls, is_url_processed, List.mem_filter]

def demoCache : CacheState :=
  { processed_urls := ["https://t.me/nft/lightsword-1"],
    url_status_cache :=
      [("https://t.me/nft/lightsword-1",
        { status := "active", processed_at := "t0", metadata := [] })],
    collection_progress := [], cache_dirty := false, last_save_time := 0 }

theorem resume_idempotence_witness :
    (process_collection defaultConfig demoEnv (fun _ _ => Outcome.timeout)
      "lightsword" ["https://t.me/nft/lightsword-1"] true 0 demoCache demoData
      []).results = []
    ∧ (process_collection defaultConfig demoEnv (fun _ _ => Outcome.timeout)
        "lightsword" ["https://t.me/nft/lightsword-1"] true 0 demoCache demoData
        []).stats.processed_urls = 0
    ∧ (process_collection defaultConfig demoEnv (fun _ _ => Outcome.timeout)
        "lightsword" ["https://t.me/nft/lightsword-1"] true 0 demoCache demoData
        []).cache = demoCache
    ∧ (process_collection defaultConfig demoEnv (fun _ _ => Outcome.timeout)
        "lightsword" ["https://t.me/nft/lightsword-1"] true 0 demoCache demoData
        []).data = demoData
    ∧ (∀ (c : CacheState) (us : List String) (u : String),
        u ∈ filter_unprocessed_urls c us ↔ u ∈ us ∧ u ∉ c.processed_urls) :=
  resume_idempotence defaultConfig demoEnv (fun _ _ => Outcome.timeout)
    "lightsword" ["https://t.me/nft/lightsword-1"] 0 demoCache demoData []
    (by decide)

/-! ## C7: per-collection failure isolation -/

theorem dictLookup_append_of_none {α : Type} (k : String)
    (l1 l2 : List (String × α)) (h : dictLookup k l1 = none) :
    dictLookup k (l1 ++ l2) = dictLookup k l2 := by
  induction l1 with
  | nil => rfl
  | cons p rest ih =>
    obtain ⟨a, b⟩ := p
    by_cases ha : a = k
    · simp [dictLookup, ha] at h
    · simp only [dictLookup, ha, if_false, List.cons_append] at h ⊢
      exact ih h

theorem dictSet_fresh {α : Type} (k : String) (v : α) (l : List (String × α))
    (h : dictLookup k l = none) : dictSet k v l = l ++ [(k, v)] := by
  induction l with
  | nil => rfl
  | cons p rest ih =>
    obtain ⟨a, b⟩ := p
    by_cases ha : a = k
    · simp [dictLookup, ha] at h
    · simp only [dictLookup, ha, if_false] at h
      simp [dictSet, ha, ih h]

theorem allStep_results (run : String → Except String CollStats) (acc : AllStats)
    (name : String) :
    (allStep run acc name).collection_results
      = dictSet name (entry_for_result (run name)) acc.collection_results := by
  unfold allStep
  cases run name <;> rfl

theorem fold_allStep_frame (run : String → Except String CollStats) :
    ∀ (names : List String) (acc : AllStats) (n : String), n ∉ names →
    dictLookup n (names.foldl (allStep run) acc).collection_results
      = dictLookup n acc.collection_results := by
  intro names
  induction names with
  | nil => intro acc n _; rfl
  | cons m names ih =>
    intro acc n h
    simp only [List.foldl_cons]
    rw [ih _ n (fun hh => h (List.mem_cons.2 (Or.inr hh)))]
    rw [allStep_results]
    exact dictLookup_dictSet_ne m n _ _ (fun he => h (he ▸ List.mem_cons_self m names))

theorem fold_allStep_keys (run : String → Except String CollStats) :
    ∀ (names : List String) (acc : AllStats),
    (∀ n ∈ names, dictLookup n acc.collection_results = none) → names.Nodup →
    (names.foldl (allStep run) acc).collection_results.map Prod.fst
      = acc.collection_results.map Prod.fst ++ names := by
  intro names
  induction names with
  | nil => intro acc _ _; simp
  | cons m names ih =>
    intro acc hfresh hnodup
    simp only [List.nodup_cons] at hnodup
    have hm := hfresh m (List.mem_cons_self m names)
    have hset : (allStep run acc m).collection_results
        = acc.collection_results ++ [(m, entry_for_result (run m))] := by
      rw [allStep_results]
      exact dictSet_fresh _ _ _ hm
    have hfresh' : ∀ n ∈ names, dictLookup n (allStep run acc m).collection_results = none := by
      intro n hn
      rw [hset, dictLookup_append_of_none n _ _ (hfresh n (List.mem_cons.2 (Or.inr hn)))]
      have : m ≠ n := fun he => hnodup.1 (he ▸ hn)
      simp [dictLookup, this]
    simp only [List.foldl_cons]
    rw [ih (allStep run acc m) hfresh' hnodup.2, hset]
    simp

theorem fold_allStep_lookup (run : String → Except String CollStats) :
    ∀ (names : List String) (acc : AllStats), names.Nodup →
    (∀ n ∈ names, dictLookup n acc.collection_results = none) →
    ∀ n ∈ names,
      dictLookup n (names.foldl (allStep run) acc).collection_results
        = some (entry_for_result (run n)) := by
  intro names
  induction names with
  | nil => intro acc _ _ n hn; cases hn
  | cons m names ih =>
    intro acc hnodup hfresh n hn
    simp only [List.nodup_cons] at hnodup
    have hm := hfresh m (List.mem_cons_self m names)
    have hset : (allStep run acc m).collection_results
        = acc.collection_results ++ [(m, entry_for_result (run m))] := by
      rw [allStep_results]
      exact dictSet_fresh _ _ _ hm
    have hfresh' : ∀ n' ∈ names,
        dictLookup n' (allStep run acc m).collection_results = none := by
      intro n' hn'
      rw [hset, dictLookup_append_of_none n' _ _
        (hfresh n' (List.mem_cons.2 (Or.inr hn')))]
      have : m ≠ n' := fun he => hnodup.1 (he ▸ hn')
      simp [dictLookup, this]
    simp only [List.foldl_cons]
    rcases List.mem_cons.1 hn with rfl | hn'
    · rw [fold_allStep_frame run names _ n hnodup.1, allStep_results]
      exact dictLookup_dictSet_self _ _ _
    · exact ih (allStep run acc m) hnodup.2 hfresh' n hn'

/-- **C7**: `process_all_collections` records one entry per collection,
in submission order (sequential processing); a collection whose
processing raises is recorded with the exception text and zero counts,
and every other collection — before or after it — still gets its own
entry determined only by its own outcome, so no failure aborts the
run. -/
theorem process_all_isolates_failures (run : String → Except String CollStats)
    (urlCount : String → Nat) (collections : List String)
    (hnodup : collections.Nodup) :
    (process_all_collections run urlCount collections).collection_results.map Prod.fst
      = collections
    ∧ (∀ name ∈ collections, ∀ e, run name = Except.error e →
        dictLookup name
            (process_all_collections run urlCount collections).collection_results
          = some { error := some e, processed_urls := 0, successful_parses := 0,
                   failed_parses := 0, stats := none })
    ∧ (∀ name ∈ collections, ∀ s, run name = Except.ok s →
        dictLookup name
            (process_all_collections run urlCount collections).collection_results
          = some { error := none, processed_urls := s.processed_urls,
                   successful_parses := s.successful_parses,
                   failed_parses := s.failed_parses, stats := some s }) := by
  refine ⟨?_, ?_, ?_⟩
  · have := fold_allStep_keys run collections
      { total_collections := collections.length, completed_collections := 0,
        total_urls := (collections.map urlCount).sum, processed_urls := 0,
        successful_parses := 0, failed_parses := 0, collection_results := [] }
      (fun n _ => rfl) hnodup
    simpa [process_all_collections] using this
  · intro name hname e herr
    have := fold_allStep_lookup run collections
      { total_collections := collections.length, completed_collections := 0,
        total_urls := (collections.map urlCount).sum, processed_urls := 0,
        successful_parses := 0, failed_parses := 0, collection_results := [] }
      hnodup (fun n _ => rfl) name hname
    rw [process_all_collections, this, herr]
    rfl
  · intro name hname s hok
    have := fold_allStep_lookup run collections
      { total_collections := collections.length, completed_collections := 0,
        total_urls := (collections.map urlCount).sum, processed_urls := 0,
        successful_parses := 0, failed_parses := 0, collection_results := [] }
      hnodup (fun n _ => rfl) name hname
    rw [process_all_collections, this, hok]
    rfl

theorem process_all_isolates_failures_witness :
    (process_all_collections
        (fun n => if n = "alpha" then Except.error "collection file not found"
          else Except.ok (create_collection_stats n 2 2 1 1 0))
        (fun _ => 2) ["alpha", "beta"]).collection_results.map Prod.fst
      = ["alpha", "beta"]
    ∧ (∀ name ∈ ["alpha", "beta"], ∀ e,
        (if name = "alpha" then Except.error "collection file not found"
          else Except.ok (create_collection_stats name 2 2 1 1 0)) = Except.error e →
        dictLookup name
            (process_all_collections
              (fun n => if n = "alpha" then Except.error "collection file not found"
                else Except.ok (create_collection_stats n 2 2 1 1 0))
              (fun _ => 2) ["alpha", "beta"]).collection_results
          = some { error := some e, processed_urls := 0, successful_parses := 0,
                   failed_parses := 0, stats := none })
    ∧ (∀ name ∈ ["alpha", "beta"], ∀ s,
        (if name = "alpha" then Except.error "collection file not found"
          else Except.ok (create_collection_stats name 2 2 1 1 0)) = Except.ok s →
        dictLookup name
            (process_all_collections
              (fun n => if n = "alpha" then Except.error "collection file not found"
                else Except.ok (create_collection_stats n 2 2 1 1 0))
              (fun _ => 2) ["alpha", "beta"]).collection_results
          = some { error := none, processed_urls := s.processed_urls,
                   successful_parses := s.successful_parses,
                   failed_parses := s.failed_parses, stats := some s }) :=
  process_all_isolates_failures
    (fun n => if n = "alpha" then Except.error "collection file not found"
      else Except.ok (create_collection_stats n 2 2 1 1 0))
    (fun _ => 2) ["alpha", "beta"] (by decide)

/-! ## C3: classification of fetch results during ingestion -/

/-- The terminal statuses of the resume cache. -/
def terminal_statuses : List String := ["active", "deleted", "error", "parse_failed"]

theorem save_cache_url_cache (now : Nat) (io : Option Nat) (force : Bool)
    (st : CacheState) :
    (save_cache now io force st).1.url_status_cache = st.url_status_cache := by
  unfold save_cache
  by_cases h : st.cache_dirty = false ∧ force = false
  · simp [h]
  · cases io <;> simp [h]

theorem periodic_save_url_cache (cfg : Config) (env : PipelineEnv) (name : String)
    (st : IngestState) :
    (periodic_save cfg env name st).cache.url_status_cache
      = st.cache.url_status_cache := by
  unfold periodic_save
  exact save_cache_url_cache env.nowT none false st.cache

theorem ingest_result_url_cache (cfg : Config) (env : PipelineEnv) (name : String)
    (st : IngestState) (r : String × Option String × Option String) :
    (ingest_result cfg env name st r).cache.url_status_cache
      = (ingest_classify cfg env name st r).cache.url_status_cache := by
  unfold ingest_result
  by_cases hc : (st.processed + 1) % cfg.SAVE_INTERVAL = 0
  · simp [hc, periodic_save_url_cache]
  · simp [hc]

theorem replaceFirstGift_ids (now : String) (g : Gift) (l : List Gift) :
    (replaceFirstGift now g l).1.map Gift.gift_id = l.map Gift.gift_id := by
  induction l with
  | nil => rfl
  | cons e rest ih =>
    by_cases he : e.gift_id = g.gift_id
    · by_cases heg : e = g <;> simp [replaceFirstGift, he, heg]
    · simp [replaceFirstGift, he, ih]

theorem upsert_mem_ids (now : String) (gifts : List Gift) (a u : Nat) (g : Gift)
    (hid : g.gift_id ≠ "") :
    g.gift_id ∈ (upsertStep now (gifts, a, u) g).1.map Gift.gift_id := by
  by_cases hmem : g.gift_id ∈ gifts.map Gift.gift_id
  · simp [upsertStep, hid, hmem, replaceFirstGift_ids]
  · simp [upsertStep, hid, hmem]

theorem save_collection_data_mem (autoBackup : Bool) (now : String) (nowT : Nat)
    (fs : Fs) (st : DataState) (name : String) (P : List Gift → Prop)
    (h : ∃ cd, dictLookup name st.collections_cache = some cd ∧ P cd.gifts) :
    ∃ cd, dictLookup name
        (save_collection autoBackup now nowT fs st name).1.collections_cache
      = some cd ∧ P cd.gifts := by
  obtain ⟨cd, hcd, hp⟩ := h
  rw [save_collection_eq autoBackup now nowT fs st name cd hcd]
  exact ⟨_, dictLookup_dictSet_self _ _ _, hp⟩

theorem periodic_save_data_mem (cfg : Config) (env : PipelineEnv) (name : String)
    (st : IngestState) (P : List Gift → Prop)
    (h : ∃ cd, dictLookup name st.data.collections_cache = some cd ∧ P cd.gifts) :
    ∃ cd, dictLookup name (periodic_save cfg env name st).data.collections_cache
      = some cd ∧ P cd.gifts := by
  unfold periodic_save
  exact save_collection_data_mem cfg.AUTO_BACKUP env.nowS env.nowT env.fs
    st.data name P h

theorem add_gifts_mem_ids (disk : String → Option Collection) (now : String)
    (nowT : Nat) (autoBackup : Bool) (fs : Fs) (st : DataState) (name : String)
    (g : Gift) (hid : g.gift_id ≠ "") :
    ∃ cd, dictLookup name
        (add_gifts_to_collection disk now nowT autoBackup fs st name [g]).1.collections_cache
      = some cd ∧ g.gift_id ∈ cd.gifts.map Gift.gift_id := by
  have hmem := upsert_mem_ids now (load_collection disk now st name).2.gifts 0 0 g hid
  simp only [add_gifts_to_collection, List.isEmpty_cons, Bool.false_eq_true,
    if_false, List.foldl_cons, List.foldl_nil]
  by_cases hT : 30 < nowT - (load_collection disk now st name).1.last_save_time
  · simp only [load_collection_last_save_time] at hT ⊢
    rw [if_pos hT]
    apply save_collection_data_mem autoBackup now nowT fs _ name
      (fun gl => g.gift_id ∈ gl.map Gift.gift_id)
    exact ⟨_, dictLookup_dictSet_self _ _ _, hmem⟩
  · simp only [load_collection_last_save_time] at hT ⊢
    rw [if_neg hT]
    exact ⟨_, dictLookup_dictSet_self _ _ _, hmem⟩

/-- **C3**: for every per-URL result handed to the ingestion loop: a
present body whose extraction yields a record passing validation leads
to the record being upserted into the collection and the URL marked
`active`; a present body with no or an invalid extracted record marks
the URL `parse_failed`; an absent body marks the URL `deleted` exactly
when the error is the 404 outcome and `error` otherwise, with the error
text attached as metadata. -/
theorem ingest_classification (cfg : Config) (env : PipelineEnv)
    (name url html : String) (err : Option String) (st : IngestState) (g : Gift) :
    (env.parse html url = some g → validate_gift_data g = true →
      dictLookup url
          (ingest_result cfg env name st (url, some html, err)).cache.url_status_cache
        = some { status := "active", processed_at := env.nowS,
                 metadata := [("gift_id", some g.gift_id), ("collection", some name)] }
      ∧ ∃ cd, dictLookup name
            (ingest_result cfg env name st (url, some html, err)).data.collections_cache
          = some cd ∧ g.gift_id ∈ cd.gifts.map Gift.gift_id)
    ∧ (env.parse html url = some g → validate_gift_data g = false →
      dictLookup url
          (ingest_result cfg env name st (url, some html, err)).cache.url_status_cache
        = some { status := "parse_failed", processed_at := env.nowS, metadata := [] })
    ∧ (env.parse html url = none →
      dictLookup url
          (ingest_result cfg env name st (url, some html, err)).cache.url_status_cache
        = some { status := "parse_failed", processed_at := env.nowS, metadata := [] })
    ∧ (err = some "404 Not Found" →
      dictLookup url
          (ingest_result cfg env name st (url, none, err)).cache.url_status_cache
        = some { status := "deleted", processed_at := env.nowS,
                 metadata := [("error", err)] })
    ∧ (err ≠ some "404 Not Found" →
      dictLookup url
          (ingest_result cfg env name st (url, none, err)).cache.url_status_cache
        = some { status := "error", processed_at := env.nowS,
                 metadata := [("error", err)] }) := by
  refine ⟨?_, ?_, ?_, ?_, ?_⟩
  · intro hp hv
    constructor
    · rw [ingest_result_url_cache]
      simp only [ingest_classify, hp, hv, if_true, mark_url_processed]
      exact dictLookup_dictSet_self _ _ _
    · have hid : g.gift_id ≠ "" := by
        intro hempty
        simp [validate_gift_data, hempty] at hv
      have hbase := add_gifts_mem_ids env.disk env.nowS env.nowT cfg.AUTO_BACKUP
        env.fs st.data name g hid
      unfold ingest_result
      by_cases hc : (st.processed + 1) % cfg.SAVE_INTERVAL = 0
      · rw [if_pos hc]
        apply periodic_save_data_mem cfg env name _
          (fun gl => g.gift_id ∈ gl.map Gift.gift_id)
        simpa [ingest_classify, hp, hv] using hbase
      · rw [if_neg hc]
        simpa [ingest_classify, hp, hv] using hbase
  · intro hp hv
    rw [ingest_result_url_cache]
    simp only [ingest_classify, hp, hv, Bool.false_eq_true, if_false,
      mark_url_processed]
    exact dictLookup_dictSet_self _ _ _
  · intro hp
    rw [ingest_result_url_cache]
    simp only [ingest_classify, hp, mark_url_processed]
    exact dictLookup_dictSet_self _ _ _
  · intro h404
    rw [ingest_result_url_cache]
    simp only [ingest_classify, h404, if_true, mark_url_processed]
    exact dictLookup_dictSet_self _ _ _
  · intro h404
    rw [ingest_result_url_cache]
    simp only [ingest_classify, h404, if_false, mark_url_processed]
    exact dictLookup_dictSet_self _ _ _

/-- A variant of the pipeline environment whose extractor always yields
`demoGift`. -/
def demoEnvParse : PipelineEnv :=
  { demoEnv with parse := fun _ _ => some demoGift }

def ingest0 : IngestState :=
  { cache := initialCache, data := { collections_cache := [], last_save_time := 0 },
    processed := 0, success := 0, errors := 0 }

theorem ingest_classification_witness :
    (dictLookup demoGift.url
        (ingest_result defaultConfig demoEnvParse "lightsword" ingest0
          (demoGift.url, some "<html>", none)).cache.url_status_cache
      = some { status := "active", processed_at := demoEnvParse.nowS,
               metadata := [("gift_id", some demoGift.gift_id),
                            ("collection", some "lightsword")] }
     ∧ ∃ cd, dictLookup "lightsword"
          (ingest_result defaultConfig demoEnvParse "lightsword" ingest0
            (demoGift.url, some "<html>", none)).data.collections_cache
        = some cd ∧ demoGift.gift_id ∈ cd.gifts.map Gift.gift_id)
    ∧ dictLookup "u2"
        (ingest_result defaultConfig demoEnv "lightsword" ingest0
          ("u2", some "<html>", none)).cache.url_status_cache
      = some { status := "parse_failed", processed_at := demoEnv.nowS, metadata := [] }
    ∧ dictLookup "u3"
        (ingest_result defaultConfig demoEnv "lightsword" ingest0
          ("u3", none, some "404 Not Found")).cache.url_status_cache
      = some { status := "deleted", processed_at := demoEnv.nowS,
               metadata := [("error", some "404 Not Found")] }
    ∧ dictLookup "u4"
        (ingest_result defaultConfig demoEnv "lightsword" ingest0
          ("u4", none, some "HTTP 500")).cache.url_status_cache
      = some { status := "error", processed_at := demoEnv.nowS,
               metadata := [("error", some "HTTP 500")] } :=
  ⟨(ingest_classification defaultConfig demoEnvParse "lightsword" demoGift.url
      "<html>" none ingest0 demoGift).1 rfl (by decide),
   (ingest_classification defaultConfig demoEnv "lightsword" "u2"
      "<html>" none ingest0 demoGift).2.2.1 rfl,
   (ingest_classification defaultConfig demoEnv "lightsword" "u3"
      "<html>" (some "404 Not Found") ingest0 demoGift).2.2.2.1 rfl,
   (ingest_classification defaultConfig demoEnv "lightsword" "u4"
      "<html>" (some "HTTP 500") ingest0 demoGift).2.2.2.2 (by decide)⟩

/-! ## C1: totality — one result and one terminal record per URL -/

theorem mem_setInsert (x y : String) (l : List String) :
    x ∈ setInsert y l ↔ x ∈ l ∨ x = y := by
  unfold setInsert
  by_cases h : y ∈ l
  · simp only [h, if_true]
    constructor
    · exact Or.inl
    · rintro (hx | rfl)
      · exact hx
      · exact h
  · simp [h]

theorem batchStep_shape (s4 sT : Bool) (scripts : String → Nat → Outcome)
    (acc : List String × List (String × Option String × Option String))
    (url : String) :
    (batchStep s4 sT scripts acc url).2.map (fun r => r.1)
      = acc.2.map (fun r => r.1) ++ [url]
    ∧ (∀ x, x ∈ (batchStep s4 sT scripts acc url).1 → x ∈ acc.1 ∨ x = url) := by
  constructor
  · unfold batchStep
    cases hres : (download_single s4 sT (scripts url)).res with
    | ok p => obtain ⟨b, e⟩ := p; simp [hres]
    | error m => simp [hres]
  · intro x hx
    unfold batchStep at hx
    by_cases h4 : (download_single s4 sT (scripts url)).add404
    · simp only [h4, if_true] at hx
      exact (mem_setInsert x url acc.1).1 hx
    · simp only [h4, Bool.false_eq_true, if_false] at hx
      exact Or.inl hx

theorem foldl_batchStep_spec (s4 sT : Bool) (scripts : String → Nat → Outcome) :
    ∀ (us : List String)
      (acc : List String × List (String × Option String × Option String)),
    ((us.foldl (batchStep s4 sT scripts) acc).2.map (fun r => r.1)
        = acc.2.map (fun r => r.1) ++ us)
    ∧ (∀ x, x ∈ (us.foldl (batchStep s4 sT scripts) acc).1 →
        x ∈ acc.1 ∨ x ∈ us) := by
  intro us
  induction us with
  | nil => intro acc; simp
  | cons u us ih =>
    intro acc
    simp only [List.foldl_cons]
    obtain ⟨h1, h2⟩ := ih (batchStep s4 sT scripts acc u)
    obtain ⟨hb1, hb2⟩ := batchStep_shape s4 sT scripts acc u
    constructor
    · rw [h1, hb1]
      simp
    · intro x hx
      rcases h2 x hx with hx1 | hx2
      · rcases hb2 x hx1 with h | h
        · exact Or.inl h
        · exact Or.inr (h ▸ List.mem_cons_self u us)
      · exact Or.inr (List.mem_cons.2 (Or.inr hx2))

theorem download_batch_spec (s4 sT : Bool) (scripts : String → Nat → Outcome)
    (failed urls : List String) (hd : ∀ u ∈ urls, u ∉ failed) :
    (download_batch s4 sT scripts failed urls).2.map (fun r => r.1) = urls
    ∧ (∀ x, x ∈ (download_batch s4 sT scripts failed urls).1 →
        x ∈ failed ∨ x ∈ urls) := by
  have hfil : urls.filter (fun u => decide (u ∉ failed)) = urls := by
    rw [List.filter_eq_self]
    intro u hu
    simpa using hd u hu
  unfold download_batch
  rw [hfil]
  obtain ⟨h1, h2⟩ := foldl_batchStep_spec s4 sT scripts urls (failed, [])
  exact ⟨by simpa using h1, h2⟩

theorem chunkList_flatten {α : Type} (n : Nat) (l : List α) :
    (chunkList n l).flatten = l := by
  have H : ∀ (m : Nat) (l : List α), l.length ≤ m → (chunkList n l).flatten = l := by
    intro m
    induction m with
    | zero =>
      intro l hl
      have : l = [] := List.eq_nil_of_length_eq_zero (Nat.le_zero.1 hl)
      subst this
      simp [chunkList]
    | succ m ih =>
      intro l hl
      cases l with
      | nil => simp [chunkList]
      | cons x xs =>
        rw [chunkList]
        simp only [List.flatten_cons]
        rw [ih (xs.drop (n - 1))
          (by rw [List.length_drop]; simp only [List.length_cons] at hl; omega)]
        simp [List.take_append_drop]
  exact H l.length l le_rfl

theorem foldl_batches_spec (s4 sT : Bool) (scripts : String → Nat → Outcome) :
    ∀ (bs : List (List String)) (failed : List String)
      (resAcc : List (String × Option String × Option String)),
    (bs.flatten).Nodup → (∀ u ∈ bs.flatten, u ∉ failed) →
    ((bs.foldl
        (fun acc batch =>
          let r := download_batch s4 sT scripts acc.1 batch
          (r.1, acc.2 ++ r.2)) (failed, resAcc)).2.map (fun r => r.1)
      = resAcc.map (fun r => r.1) ++ bs.flatten)
    ∧ (∀ x, x ∈ (bs.foldl
        (fun acc batch =>
          let r := download_batch s4 sT scripts acc.1 batch
          (r.1, acc.2 ++ r.2)) (failed, resAcc)).1 →
        x ∈ failed ∨ x ∈ bs.flatten) := by
  intro bs
  induction bs with
  | nil => intro failed resAcc _ _; simp
  | cons c bs ih =>
    intro failed resAcc hnodup hdisj
    simp only [List.flatten_cons] at hnodup hdisj
    have hdc : ∀ u ∈ c, u ∉ failed := fun u hu =>
      hdisj u (List.mem_append.2 (Or.inl hu))
    obtain ⟨hb1, hb2⟩ := download_batch_spec s4 sT scripts failed c hdc
    have hdisjoint : List.Disjoint c bs.flatten := List.disjoint_of_nodup_append hnodup
    have hdisj' : ∀ u ∈ bs.flatten, u ∉ (download_batch s4 sT scripts failed c).1 := by
      intro u hu hmem
      rcases hb2 u hmem with h | h
      · exact hdisj u (List.mem_append.2 (Or.inr hu)) h
      · exact hdisjoint h hu
    have hnodup' : bs.flatten.Nodup := (List.nodup_append.1 hnodup).2.1
    obtain ⟨h1, h2⟩ := ih (download_batch s4 sT scripts failed c).1
      (resAcc ++ (download_batch s4 sT scripts failed c).2) hnodup' hdisj'
    simp only [List.foldl_cons]
    constructor
    · rw [h1, List.map_append, hb1]
      simp
    · intro x hx
      rcases h2 x hx with h | h
      · rcases hb2 x h with h' | h'
        · exact Or.inl h'
        · exact Or.inr (List.mem_append.2 (Or.inl h'))
      · exact Or.inr (List.mem_append.2 (Or.inr h))

theorem download_with_batching_spec (s4 sT : Bool)
    (scripts : String → Nat → Outcome) (batchSize : Nat)
    (failed urls : List String) (hnodup : urls.Nodup)
    (hd : ∀ u ∈ urls, u ∉ failed) :
    (download_with_batching s4 sT scripts batchSize failed urls).2.map (fun r => r.1)
      = urls
    ∧ (∀ x, x ∈ (download_with_batching s4 sT scripts batchSize failed urls).1 →
        x ∈ failed ∨ x ∈ urls) := by
  unfold download_with_batching
  have hj := chunkList_flatten batchSize urls
  obtain ⟨h1, h2⟩ := foldl_batches_spec s4 sT scripts (chunkList batchSize urls)
    failed [] (by rw [hj]; exact hnodup) (by rw [hj]; exact hd)
  rw [hj] at h1 h2
  exact ⟨by simpa using h1, h2⟩

theorem ingest_classify_cache (cfg : Config) (env : PipelineEnv) (name : String)
    (st : IngestState) (r : String × Option String × Option String) :
    ∃ rec : URLRecord, rec.status ∈ terminal_statuses ∧
      (ingest_classify cfg env name st r).cache.url_status_cache
        = dictSet r.1 rec st.cache.url_status_cache := by
  obtain ⟨url, body, err⟩ := r
  cases body with
  | none =>
    by_cases h404 : err = some "404 Not Found"
    · exact ⟨{ status := "deleted", processed_at := env.nowS,
               metadata := [("error", err)] },
        by simp [terminal_statuses],
        by simp [ingest_classify, h404, mark_url_processed]⟩
    · exact ⟨{ status := "error", processed_at := env.nowS,
               metadata := [("error", err)] },
        by simp [terminal_statuses],
        by simp [ingest_classify, h404, mark_url_processed]⟩
  | some html =>
    cases hp : env.parse html url with
    | none =>
      exact ⟨{ status := "parse_failed", processed_at := env.nowS, metadata := [] },
        by simp [terminal_statuses],
        by simp [ingest_classify, hp, mark_url_processed]⟩
    | some g =>
      by_cases hv : validate_gift_data g
      · exact ⟨{ status := "active", processed_at := env.nowS,
                 metadata := [("gift_id", some g.gift_id), ("collection", some name)] },
          by simp [terminal_statuses],
          by simp [ingest_classify, hp, hv, mark_url_processed]⟩
      · exact ⟨{ status := "parse_failed", processed_at := env.nowS, metadata := [] },
          by simp [terminal_statuses],
          by simp [ingest_classify, hp, hv, mark_url_processed]⟩

theorem ingest_result_cache_set (cfg : Config) (env : PipelineEnv) (name : String)
    (st : IngestState) (r : String × Option String × Option String) :
    ∃ rec : URLRecord, rec.status ∈ terminal_statuses ∧
      (ingest_result cfg env name st r).cache.url_status_cache
        = dictSet r.1 rec st.cache.url_status_cache := by
  obtain ⟨rec, h1, h2⟩ := ingest_classify_cache cfg env name st r
  exact ⟨rec, h1, by rw [ingest_result_url_cache]; exact h2⟩

theorem ingest_fold_frame (cfg : Config) (env : PipelineEnv) (name : String) :
    ∀ (rs : List (String × Option String × Option String)) (st : IngestState)
      (u : String), u ∉ rs.map (fun r => r.1) →
    dictLookup u (rs.foldl (ingest_result cfg env name) st).cache.url_status_cache
      = dictLookup u st.cache.url_status_cache := by
  intro rs
  induction rs with
  | nil => intro st u _; rfl
  | cons r rs ih =>
    intro st u hu
    simp only [List.map_cons, List.mem_cons] at hu
    push_neg at hu
    simp only [List.foldl_cons]
    rw [ih _ u hu.2]
    obtain ⟨rec, _, hset⟩ := ingest_result_cache_set cfg env name st r
    rw [hset]
    exact dictLookup_dictSet_ne r.1 u rec _ (Ne.symm hu.1)

theorem ingest_fold_marked (cfg : Config) (env : PipelineEnv) (name : String) :
    ∀ (rs : List (String × Option String × Option String)) (st : IngestState)
      (u : String), (rs.map (fun r => r.1)).Nodup → u ∈ rs.map (fun r => r.1) →
    ∃ rec, dictLookup u
        (rs.foldl (ingest_result cfg env name) st).cache.url_status_cache
      = some rec ∧ rec.status ∈ terminal_statuses := by
  intro rs
  induction rs with
  | nil => intro st u _ hu; simp at hu
  | cons r rs ih =>
    intro st u hnodup hu
    simp only [List.map_cons, List.nodup_cons] at hnodup
    simp only [List.map_cons, List.mem_cons] at hu
    simp only [List.foldl_cons]
    rcases hu with rfl | hu'
    · rw [ingest_fold_frame cfg env name rs _ r.1 hnodup.1]
      obtain ⟨rec, hterm, hset⟩ := ingest_result_cache_set cfg env name st r
      rw [hset]
      exact ⟨rec, dictLookup_dictSet_self _ _ _, hterm⟩
    · exact ih _ u hnodup.2 hu'

theorem ingest_fold_keys_nodup (cfg : Config) (env : PipelineEnv) (name : String) :
    ∀ (rs : List (String × Option String × Option String)) (st : IngestState),
    dictNodupKeys st.cache.url_status_cache →
    dictNodupKeys
      (rs.foldl (ingest_result cfg env name) st).cache.url_status_cache := by
  intro rs
  induction rs with
  | nil => intro st h; exact h
  | cons r rs ih =>
    intro st h
    simp only [List.foldl_cons]
    apply ih
    obtain ⟨rec, _, hset⟩ := ingest_result_cache_set cfg env name st r
    rw [hset]
    exact dictNodupKeys_dictSet r.1 rec _ h

theorem length_filter_fst {β : Type} (l : List (String × β)) (u : String) :
    (l.filter (fun r => r.1 = u)).length
      = ((l.map (fun r => r.1)).filter (fun x => x = u)).length := by
  induction l with
  | nil => rfl
  | cons r rs ih =>
    by_cases h : r.1 = u <;> simp [List.filter, h, ih]

theorem length_filter_eq_one_of_nodup_mem (l : List String) (u : String)
    (hn : l.Nodup) (hm : u ∈ l) :
    (l.filter (fun x => x = u)).length = 1 := by
  induction l with
  | nil => simp at hm
  | cons x xs ih =>
    simp only [List.nodup_cons] at hn
    rcases List.mem_cons.1 hm with rfl | hmem
    · have hz : xs.filter (fun y => y = u) = [] := by
        rw [List.filter_eq_nil_iff]
        intro y hy
        simp only [decide_eq_true_eq]
        rintro rfl
        exact hn.1 hy
      simp [List.filter, hz]
    · have hx : x ≠ u := by
        rintro rfl
        exact hn.1 hmem
      simp [List.filter, hx, ih hn.2 hmem]

/-- **C1**: for a run of `process_collection` over distinct URLs with a
fresh downloader (empty `failed_urls`): the fetch layer produces exactly
one `(url, body-or-none, error-or-none)` tuple per URL handed to it (the
submitted list, resume-filtered when resuming), and after the run every
URL of the input list owns exactly one URL-status-cache record, carrying
one of the four terminal statuses.  URLs skipped by the resume filter
keep the terminal record of a previous run — hypothesis `hprev`, the
consistency between the processed set and the status map that the
cache's own writes maintain. -/
theorem process_collection_totality (cfg : Config) (env : PipelineEnv)
    (scripts : String → Nat → Outcome) (name : String) (all_urls : List String)
    (resume : Bool) (dur : Rat) (cache : CacheState) (data : DataState)
    (hnodup : all_urls.Nodup)
    (hkeys : dictNodupKeys cache.url_status_cache)
    (hprev : ∀ u ∈ all_urls, is_url_processed cache u = true →
      ∃ rec, dictLookup u cache.url_status_cache = some rec
        ∧ rec.status ∈ terminal_statuses) :
    ((process_collection cfg env scripts name all_urls resume dur cache data
        []).results.map (fun r => r.1)
      = (if resume then filter_unprocessed_urls cache all_urls else all_urls))
    ∧ (∀ u ∈ (if resume then filter_unprocessed_urls cache all_urls else all_urls),
        ((process_collection cfg env scripts name all_urls resume dur cache data
            []).results.filter (fun r => r.1 = u)).length = 1)
    ∧ (∀ u ∈ all_urls,
        ∃ rec, dictLookup u
            (process_collection cfg env scripts name all_urls resume dur cache data
              []).cache.url_status_cache = some rec
          ∧ rec.status ∈ terminal_statuses
          ∧ dictCountKey u
              (process_collection cfg env scripts name all_urls resume dur cache data
                []).cache.url_status_cache = 1) := by
  set utp := (if resume then filter_unprocessed_urls cache all_urls else all_urls)
    with hutp
  have hutp_nodup : utp.Nodup := by
    rw [hutp]
    cases resume
    · simpa using hnodup
    · simpa [filter_unprocessed_urls] using hnodup.filter _
  by_cases hne1 : all_urls.isEmpty = true
  · have h0 : all_urls = [] := by
      cases all_urls with
      | nil => rfl
      | cons x xs => simp at hne1
    subst h0
    have hutp0 : utp = [] := by
      rw [hutp]; cases resume <;> simp [filter_unprocessed_urls]
    refine ⟨?_, ?_, ?_⟩
    · simp [process_collection, hutp0]
    · intro u hu
      rw [hutp0] at hu
      simp at hu
    · intro u hu
      simp at hu
  · have hne1' : all_urls.isEmpty = false := by
      cases h : all_urls.isEmpty
      · rfl
      · exact absurd h hne1
    by_cases hne2 : utp.isEmpty = true
    · have hutp0 : utp = [] := by
        cases hc : utp with
        | nil => rfl
        | cons x xs => rw [hc] at hne2; simp at hne2
      have hrun : process_collection cfg env scripts name all_urls resume dur
          cache data []
          = { stats := create_collection_stats name all_urls.length 0 0
                (all_urls.length - utp.length) 0,
              cache := cache, data := data, failed_urls := [], results := [] } := by
        simp only [process_collection, hne1', Bool.false_eq_true, if_false,
          ← hutp, hne2, if_true]
      refine ⟨?_, ?_, ?_⟩
      · rw [hrun, hutp0]
        rfl
      · intro u hu
        rw [hutp0] at hu
        simp at hu
      · intro u hu
        have hresume : resume = true := by
          cases resume
          · rw [hutp] at hutp0
            simp only [Bool.false_eq_true, if_false] at hutp0
            rw [hutp0] at hu
            simp at hu
          · rfl
        have hfilter0 : filter_unprocessed_urls cache all_urls = [] := by
          rw [hresume] at hutp
          simpa [hutp] using hutp0
        have hproc : is_url_processed cache u = true := by
          cases hipc : is_url_processed cache u
          · have : u ∈ filter_unprocessed_urls cache all_urls := by
              simp [filter_unprocessed_urls, List.mem_filter, hu, hipc]
            rw [hfilter0] at this
            simp at this
          · rfl
        obtain ⟨rec, hl, ht⟩ := hprev u hu hproc
        refine ⟨rec, ?_, ht, ?_⟩
        · rw [hrun]
          exact hl
        · rw [hrun]
          exact dictCountKey_of_lookup u _ hkeys (by simp [hl])
    · have hne2' : utp.isEmpty = false := by
        cases h : utp.isEmpty
        · rfl
        · exact absurd h hne2
      have hd0 : ∀ u ∈ utp, u ∉ ([] : List String) := by
        intro u _ h
        simp at h
      obtain ⟨hmap, _⟩ := download_with_batching_spec cfg.SKIP_404_ERRORS
        cfg.SKIP_TIMEOUT_ERRORS scripts cfg.BATCH_SIZE [] utp hutp_nodup hd0
      have hres : (process_collection cfg env scripts name all_urls resume dur
            cache data []).results
          = (download_with_batching cfg.SKIP_404_ERRORS cfg.SKIP_TIMEOUT_ERRORS
              scripts cfg.BATCH_SIZE [] utp).2 := by
        simp only [process_collection, hne1', Bool.false_eq_true, if_false,
          ← hutp, hne2', if_false]
      have hcache : (process_collection cfg env scripts name all_urls resume dur
            cache data []).cache.url_status_cache
          = ((download_with_batching cfg.SKIP_404_ERRORS cfg.SKIP_TIMEOUT_ERRORS
                scripts cfg.BATCH_SIZE [] utp).2.foldl (ingest_result cfg env name)
              { cache := cache, data := data, processed := 0, success := 0,
                errors := 0 }).cache.url_status_cache := by
        simp only [process_collection, hne1', Bool.false_eq_true, if_false,
          ← hutp, hne2', update_collection_progress, save_cache_url_cache]
      have hkeys' : dictNodupKeys
          ((download_with_batching cfg.SKIP_404_ERRORS cfg.SKIP_TIMEOUT_ERRORS
              scripts cfg.BATCH_SIZE [] utp).2.foldl (ingest_result cfg env name)
            { cache := cache, data := data, processed := 0, success := 0,
              errors := 0 }).cache.url_status_cache :=
        ingest_fold_keys_nodup cfg env name _ _ hkeys
      refine ⟨?_, ?_, ?_⟩
      · rw [hres]
        exact hmap
      · intro u hu
        rw [hres, length_filter_fst, hmap]
        exact length_filter_eq_one_of_nodup_mem utp u hutp_nodup hu
      · intro u hu
        by_cases hmem : u ∈ utp
        · have hu2 : u ∈ (download_with_batching cfg.SKIP_404_ERRORS
              cfg.SKIP_TIMEOUT_ERRORS scripts cfg.BATCH_SIZE [] utp).2.map
                (fun r => r.1) := by
            rw [hmap]; exact hmem
          have hnodup2 : ((download_with_batching cfg.SKIP_404_ERRORS
              cfg.SKIP_TIMEOUT_ERRORS scripts cfg.BATCH_SIZE [] utp).2.map
                (fun r => r.1)).Nodup := by
            rw [hmap]; exact hutp_nodup
          obtain ⟨rec, hl, ht⟩ := ingest_fold_marked cfg env name _
            { cache := cache, data := data, processed := 0, success := 0,
              errors := 0 } u hnodup2 hu2
          refine ⟨rec, ?_, ht, ?_⟩
          · rw [hcache]
            exact hl
          · rw [hcache]
            exact dictCountKey_of_lookup u _ hkeys' (by simp [hl])
        · have hresume : resume = true := by
            cases resume
            · rw [hutp] at hmem
              simp only [Bool.false_eq_true, if_false] at hmem
              exact absurd hu hmem
            · rfl
          have hproc : is_url_processed cache u = true := by
            cases hipc : is_url_processed cache u
            · exact absurd (by
                rw [hutp, hresume]
                simpa [filter_unprocessed_urls, List.mem_filter, hipc] using hu)
                hmem
            · rfl
          obtain ⟨rec, hl, ht⟩ := hprev u hu hproc
          have hu2 : u ∉ (download_with_batching cfg.SKIP_404_ERRORS
              cfg.SKIP_TIMEOUT_ERRORS scripts cfg.BATCH_SIZE [] utp).2.map
                (fun r => r.1) := by
            rw [hmap]; exact hmem
          have hframe := ingest_fold_frame cfg env name _
            { cache := cache, data := data, processed := 0, success := 0,
              errors := 0 } u hu2
          refine ⟨rec, ?_, ht, ?_⟩
          · rw [hcache, hframe]
            exact hl
          · rw [hcache]
            exact dictCountKey_of_lookup u _ hkeys' (by rw [hframe]; simp [hl])

/-- A network script for the witness run: the first demo URL answers
200, everything else 404. -/
def demoScripts : String → Nat → Outcome :=
  fun u _ =>
    if u = "https://t.me/nft/lightsword-1" then Outcome.ok "<html>"
    else Outcome.httpStatus 404

theorem process_collection_totality_witness :
    ((process_collection defaultConfig demoEnvParse demoScripts "lightsword"
        ["https://t.me/nft/lightsword-1", "https://t.me/nft/lightsword-2"] true 0
        initialCache demoData []).results.map (fun r => r.1)
      = (if true then
          filter_unprocessed_urls initialCache
            ["https://t.me/nft/lightsword-1", "https://t.me/nft/lightsword-2"]
         else ["https://t.me/nft/lightsword-1", "https://t.me/nft/lightsword-2"]))
    ∧ (∀ u ∈ (if true then
          filter_unprocessed_urls initialCache
            ["https://t.me/nft/lightsword-1", "https://t.me/nft/lightsword-2"]
         else ["https://t.me/nft/lightsword-1", "https://t.me/nft/lightsword-2"]),
        ((process_collection defaultConfig demoEnvParse demoScripts "lightsword"
            ["https://t.me/nft/lightsword-1", "https://t.me/nft/lightsword-2"] true 0
            initialCache demoData []).results.filter (fun r => r.1 = u)).length = 1)
    ∧ (∀ u ∈ ["https://t.me/nft/lightsword-1", "https://t.me/nft/lightsword-2"],
        ∃ rec, dictLookup u
            (process_collection defaultConfig demoEnvParse demoScripts "lightsword"
              ["https://t.me/nft/lightsword-1", "https://t.me/nft/lightsword-2"] true 0
              initialCache demoData []).cache.url_status_cache = some rec
          ∧ rec.status ∈ terminal_statuses
          ∧ dictCountKey u
              (process_collection defaultConfig demoEnvParse demoScripts "lightsword"
                ["https://t.me/nft/lightsword-1", "https://t.me/nft/lightsword-2"]
                true 0 initialCache demoData []).cache.url_status_cache = 1) :=
  process_collection_totality defaultConfig demoEnvParse demoScripts "lightsword"
    ["https://t.me/nft/lightsword-1", "https://t.me/nft/lightsword-2"] true 0
    initialCache demoData (by decide)
    (by simp [initialCache, dictNodupKeys])
    (by intro u hu hproc; simp [is_url_processed, initialCache] at hproc)

end GiftPipeline
